import Mathlib

/-!
# SkookumScript binding generator helper (`SkookumScriptGeneratorBase.inl`)

A shallow embedding of `FSkookumScriptGeneratorBase`: the identifier renamer
(`skookify_var_name`, `skookify_method_name`), the property classifier
(`get_skookum_property_type`), the class path resolver (`get_skookum_class_path`)
and the change-aware file writer (`save_text_file_if_changed`,
`flush_saved_text_files`).

Conventions of the embedding.

* An `FString` is the list of its `TCHAR`s.  `TEXT s` is the list of characters of
  the literal `s`.
* `isupper`, `isdigit` and `tolower` are the C library routines in the "C" locale
  (ASCII letters and digits only).
* Comparison of two strings or two names (`==`) ignores ASCII case, as the engine does
  (`ieq`); so do `FString::Replace`, whose search ignores case unless told otherwise, and
  `AddUnique` on an array of strings.  `Strcmp` and the searches that the source asks to
  be `ESearchCase::CaseSensitive` compare the characters as they are.  In the keyword
  test of `skookify_var_name` both comparisons agree, the scanned name and the keywords
  have no upper case letter (`escape_keyword_of_tidy`).
* `m_scripts_path_depth` is an `int32`: the subtractions on it wrap around (`int32`).
* A pointer to a reflection object is the object itself, which carries its address:
  equal pointers are equal objects.
* What the platform decides (whether a file can be written or moved, what the ANSI form
  of a text is) is an argument of the file writer (`Platform`).
* The reflection objects of the engine (`UStruct`, `UClass`, `UProperty`) are
  inductive data carrying exactly what the generator reads from them.
* The file system is a map from paths to contents.  An `FError::Throwf` is the
  `error` branch of `Except`.
-/

namespace FSkookumScriptGeneratorBase

/-! ## Strings -/

/-- An engine string, as the list of its characters. -/
abbrev FString := List Char

/-- The characters of a string literal (the `TEXT("...")` of the source). -/
def TEXT (s : String) : FString := s.toList

/-- C `isupper` in the "C" locale: `A` .. `Z`. -/
def isupper (c : Char) : Bool := decide (65 ≤ c.toNat ∧ c.toNat ≤ 90)

/-- C `isdigit`: `0` .. `9`. -/
def isdigit (c : Char) : Bool := decide (48 ≤ c.toNat ∧ c.toNat ≤ 57)

/-- C `tolower` in the "C" locale: `A` .. `Z` go to `a` .. `z`, every other character
is unchanged. -/
def tolower (c : Char) : Char := if isupper c then Char.ofNat (c.toNat + 32) else c

/-- Comparison of two strings ignoring ASCII case: `FString::operator==` and the
comparison of two names. -/
def ieq (a b : FString) : Bool := a.map tolower == b.map tolower

/-- Model of `FString::StartsWith(pre, ESearchCase::IgnoreCase)`. -/
def StartsWith_IgnoreCase : FString → FString → Bool
  | _, [] => true
  | [], _ :: _ => false
  | c :: s, p :: pre => tolower c == tolower p && StartsWith_IgnoreCase s pre

/-- Model of `FString::StartsWith(pre, ESearchCase::CaseSensitive)`; for a non-empty `pre` this
is also `Find(pre, ESearchCase::CaseSensitive) == 0`. -/
def StartsWith : FString → FString → Bool
  | _, [] => true
  | [], _ :: _ => false
  | c :: s, p :: pre => c == p && StartsWith s pre

/-- Model of `FString::RemoveFromStart(pre, ESearchCase::CaseSensitive)`: the string after the
call and the returned flag. -/
def RemoveFromStart (s pre : FString) : FString × Bool :=
  if pre.isEmpty then (s, false)
  else if StartsWith s pre then (s.drop pre.length, true)
  else (s, false)

/-- The scanning loop of `FCString::IsNumeric` after the optional sign: digits with at
most one dot. -/
def IsNumeric_loop : Bool → FString → Bool
  | _, [] => true
  | has_dot, c :: cs =>
    if c = '.' then (if has_dot then false else IsNumeric_loop true cs)
    else if !isdigit c then false
    else IsNumeric_loop has_dot cs

/-- Model of `FString::IsNumeric()`: false on the empty string, otherwise `FCString::IsNumeric`
(an optional sign, then digits with at most one dot). -/
def IsNumeric (s : FString) : Bool :=
  match s with
  | [] => false
  | c :: cs => if c = '-' ∨ c = '+' then IsNumeric_loop false cs else IsNumeric_loop false (c :: cs)

/-- Model of `FString::Mid(start, count)`. -/
def Mid (s : FString) (start count : Nat) : FString := (s.drop start).take count

/-- The loop of `FString::Replace(src, dst)` at one position: a match of `src`, found
ignoring case (the default `ESearchCase::IgnoreCase`), is replaced and the scan goes on
after it, any other character is copied.  `fuel` bounds the number of steps by the
length of the string. -/
def Replace_loop (src dst : FString) : Nat → FString → FString
  | 0, s => s
  | _ + 1, [] => []
  | fuel + 1, c :: cs =>
    if StartsWith_IgnoreCase (c :: cs) src ∧ src ≠ []
    then dst ++ Replace_loop src dst fuel ((c :: cs).drop src.length)
    else c :: Replace_loop src dst fuel cs

/-- Model of `FString::Replace(src, dst)`: every occurrence of `src`, found left to right
without overlap and ignoring case, is replaced by `dst`. -/
def Replace (s src dst : FString) : FString := Replace_loop src dst s.length s

/-- Model of `FString::operator/`: path concatenation, inserting one `/` unless the left side
is empty or already ends in a separator. -/
def path_join (lhs rhs : FString) : FString :=
  match lhs.getLast? with
  | none => rhs
  | some c => if c = '/' ∨ c = Char.ofNat 92 then lhs ++ rhs else lhs ++ '/' :: rhs

/-! ## Tables -/

/-- The type ids of the source (`eSkTypeID`). -/
inductive eSkTypeID where
  | SkTypeID_None
  | SkTypeID_Integer
  | SkTypeID_Real
  | SkTypeID_Boolean
  | SkTypeID_String
  | SkTypeID_Vector2
  | SkTypeID_Vector3
  | SkTypeID_Vector4
  | SkTypeID_Rotation
  | SkTypeID_RotationAngles
  | SkTypeID_Transform
  | SkTypeID_Color
  | SkTypeID_Name
  | SkTypeID_Enum
  | SkTypeID_UStruct
  | SkTypeID_UClass
  | SkTypeID_UObject
  | SkTypeID_List
  deriving DecidableEq, Repr

open eSkTypeID

/-- Forbidden variable names. -/
def ms_reserved_keywords : List FString :=
  [ TEXT "branch", TEXT "case", TEXT "divert", TEXT "else", TEXT "exit", TEXT "false",
    TEXT "fork", TEXT "if", TEXT "loop", TEXT "nil", TEXT "race", TEXT "rush",
    TEXT "skip", TEXT "sync", TEXT "this", TEXT "this_class", TEXT "this_code",
    TEXT "true", TEXT "unless", TEXT "when",
    -- Boolean word operators
    TEXT "and", TEXT "nand", TEXT "nor", TEXT "not", TEXT "nxor", TEXT "or", TEXT "xor" ]

/-! ## Identifier renaming -/

/-- Renaming of class names: the fixed table of the source, any other name unchanged.
The comparisons are `FString == TEXT(...)`, which ignore case. -/
def skookify_class_name (name : FString) : FString :=
  if ieq name (TEXT "Object") then TEXT "Entity"
  else if ieq name (TEXT "Class") then TEXT "EntityClass"
  else if ieq name (TEXT "Enum") then TEXT "Enum2"
  else if ieq name (TEXT "DataTableFunctionLibrary") then TEXT "DataLib"
  else if ieq name (TEXT "GameplayStatics") then TEXT "GameLib"
  else if ieq name (TEXT "HeadMountedDisplayFunctionLibrary") then TEXT "VRLib"
  else if ieq name (TEXT "KismetArrayLibrary") then TEXT "ArrayLib"
  else if ieq name (TEXT "KismetGuidLibrary") then TEXT "GuidLib"
  else if ieq name (TEXT "KismetInputLibrary") then TEXT "InputLib"
  else if ieq name (TEXT "KismetMaterialLibrary") then TEXT "MaterialLib"
  else if ieq name (TEXT "KismetMathLibrary") then TEXT "MathLib"
  else if ieq name (TEXT "KismetNodeHelperLibrary") then TEXT "NodeLib"
  else if ieq name (TEXT "KismetStringLibrary") then TEXT "StringLib"
  else if ieq name (TEXT "KismetSystemLibrary") then TEXT "SystemLib"
  else if ieq name (TEXT "KismetTextLibrary") then TEXT "TextLib"
  else if ieq name (TEXT "VisualLoggerKismetLibrary") then TEXT "LogLib"
  else name

/-- The local variables of the scanning loop of `skookify_var_name`. -/
structure ScanState where
  skookum_name : FString
  was_upper : Bool
  was_underscore : Bool
  deriving DecidableEq, Repr

/-- One iteration of the scanning loop of `skookify_var_name`, on the character `c`. -/
def scan_step (st : ScanState) (c : Char) : ScanState :=
  -- Skip special characters
  if c = '?' then st
  -- Insert underscore when appropriate
  else if c = ' ' ∨ c = ':' ∨ c = '_' then
    if !st.was_underscore then
      { st with skookum_name := st.skookum_name ++ ['_'], was_underscore := true }
    else st
  else
    let is_upper := isupper c || isdigit c
    let name1 :=
      if is_upper && !st.was_upper && !st.was_underscore then st.skookum_name ++ ['_']
      else st.skookum_name
    { skookum_name := name1 ++ [tolower c], was_upper := is_upper, was_underscore := false }

/-- The test `name.Len() > 2 && name[0] == 'b' && isupper(name[1])`. -/
def is_b_boolean : FString → Bool
  | c0 :: c1 :: _ :: _ => c0 == 'b' && isupper c1
  | _ => false

/-- The scanning loop of `skookify_var_name`: it starts at index 1 when the name has the
boolean `b`, with `skookum_name` holding `@` for a member, and both flags set. -/
def scan_name (name : FString) (is_member : Bool) : FString :=
  let start : ScanState :=
    { skookum_name := if is_member then ['@'] else [], was_upper := true, was_underscore := true }
  ((name.drop (if is_b_boolean name then 1 else 0)).foldl scan_step start).skookum_name

/-- The reserved keyword check: an underscore is appended to a name that is equal to a
name of the table, which for strings means equal ignoring case. -/
def escape_keyword (skookum_name : FString) : FString :=
  if ms_reserved_keywords.any (fun keyword => ieq skookum_name keyword)
  then skookum_name ++ ['_'] else skookum_name

/-- The test of one checksum character, `(c - '0') > 9u && (c - 'a') > 5u` in unsigned
32 bit arithmetic: true when `c` is neither in `0` .. `9` nor in `a` .. `f`. -/
def not_md5_char (c : Char) : Bool :=
  decide ((c.toNat + 2 ^ 32 - 48) % 2 ^ 32 > 9) && decide ((c.toNat + 2 ^ 32 - 97) % 2 ^ 32 > 5)

/-- The MD5 check: a name longer than 33 characters whose last 33 characters are `_`
and 32 checksum characters loses them. -/
def chop_md5 (skookum_name : FString) : FString :=
  let skookum_name_len := skookum_name.length
  if skookum_name_len > 33 then
    let skookum_name_p := skookum_name.drop (skookum_name_len - 33)
    if skookum_name_p.head? = some '_' then
      if (skookum_name_p.drop 1).any not_md5_char then skookum_name
      else skookum_name.take (skookum_name_len - 33)
    else skookum_name
  else skookum_name

/-- Translation of `skookify_var_name(name, append_question_mark, is_member)`. -/
def skookify_var_name (name : FString) (append_question_mark : Bool) (is_member : Bool) :
    FString :=
  if name.isEmpty then name
  else
    let scanned := scan_name name is_member
    let escaped := if !is_member then escape_keyword scanned else scanned
    let chopped := chop_md5 escaped
    if append_question_mark then chopped ++ ['?'] else chopped

/-! ## Reflection data -/

/-- The class of a reflection object derived from `UStruct`. -/
inductive UStructKind where
  | Class
  | ScriptStruct
  | Function
  deriving DecidableEq, Repr

/-- What the generator reads from one `UStruct` object, its super struct apart. -/
structure UStructData where
  /-- Address of the object: two pointers are equal when they point to the same
  address, where the same data is read -/
  Address : Nat
  /-- Model of `GetName()`, also the text of `GetFName()` -/
  Name : FString
  /-- which of `Cast<UClass>`, `Cast<UScriptStruct>` succeeds -/
  Kind : UStructKind
  /-- Model of `UScriptStruct::HasDefaults()` -/
  HasDefaults : Bool
  /-- Model of `StructFlags & STRUCT_RequiredAPI` -/
  STRUCT_RequiredAPI : Bool
  /-- Model of `StructFlags & STRUCT_IsPlainOldData` -/
  STRUCT_IsPlainOldData : Bool
  /-- Model of `HasAnyClassFlags(CLASS_RequiredAPI | CLASS_MinimalAPI)` -/
  CLASS_AnyAPI : Bool
  /-- the name of `UBlueprint::GetBlueprintFromClass`, when the build is `WITH_EDITOR`
  and the class was generated by a blueprint -/
  Blueprint : Option FString
  deriving DecidableEq, Repr

/-- A class or struct of the engine with its chain of super structs, which is finite
and without cycles. -/
inductive UStruct where
  | root (d : UStructData)
  | derived (d : UStructData) (super : UStruct)
  deriving DecidableEq, Repr

/-- The data of the object itself. -/
def UStruct.data : UStruct → UStructData
  | .root d => d
  | .derived d _ => d

/-- Model of `GetSuperStruct()`. -/
def UStruct.GetSuperStruct : UStruct → Option UStruct
  | .root _ => none
  | .derived _ s => some s

/-- Model of `GetName()`. -/
def UStruct.GetName (s : UStruct) : FString := s.data.Name

/-- Model of `Cast<UClass>(s) != nullptr`. -/
def UStruct.is_class (s : UStruct) : Bool := decide (s.data.Kind = UStructKind.Class)

/-- The name of `obj_p` in `get_skookum_class_path`: the object is the struct itself,
or, `WITH_EDITOR`, the blueprint of a class that has one. -/
def UStruct.obj_name (s : UStruct) : FString :=
  match (if s.is_class then s.data.Blueprint else none) with
  | some blueprint_name => blueprint_name
  | none => s.GetName

/-- The property classes of the engine other than `UArrayProperty`, with the data the
generator reads from them. -/
inductive UPropertyClass where
  /-- Model of `UByteProperty`, a `UNumericProperty` with `IsInteger()`; `Enum` is the name of its
  enum when it has one -/
  | ByteProperty (Enum : Option FString)
  /-- the other integer properties, `UNumericProperty` with `IsInteger()` -/
  | IntProperty
  /-- Model of `UFloatProperty`, a `UNumericProperty` without `IsInteger()` -/
  | FloatProperty
  /-- Model of `UDoubleProperty`, a `UNumericProperty` without `IsInteger()` -/
  | DoubleProperty
  | BoolProperty
  | StrProperty
  | NameProperty
  | StructProperty (Struct : UStruct)
  /-- Model of `UObjectProperty`, a `UObjectPropertyBase` -/
  | ObjectProperty (PropertyClass : UStruct)
  /-- Model of `UClassProperty`, a `UObjectProperty` -/
  | ClassProperty (PropertyClass : UStruct)
  /-- Model of `UWeakObjectProperty`, a `UObjectPropertyBase` -/
  | WeakObjectProperty (PropertyClass : UStruct)
  /-- Model of `ULazyObjectProperty`, a `UObjectPropertyBase` -/
  | LazyObjectProperty (PropertyClass : UStruct)
  /-- Model of `UAssetObjectProperty`, a `UObjectPropertyBase` -/
  | AssetObjectProperty (PropertyClass : UStruct)
  /-- Model of `UAssetClassProperty`, a `UAssetObjectProperty` -/
  | AssetClassProperty (PropertyClass : UStruct)
  /-- any other property class (text, interface, delegate, ...) -/
  | OtherProperty
  deriving DecidableEq, Repr

/-- A property: its `CPF_EditorOnly` flag and its class; an array property has its
element property `Inner`. -/
inductive UProperty where
  | plain (CPF_EditorOnly : Bool) (cls : UPropertyClass)
  | ArrayProperty (CPF_EditorOnly : Bool) (Inner : UProperty)
  deriving DecidableEq, Repr

/-- Model of `HasAnyPropertyFlags(CPF_EditorOnly)`. -/
def UProperty.CPF_EditorOnly : UProperty → Bool
  | .plain f _ => f
  | .ArrayProperty f _ => f

/-- Model of `IsA(UNumericProperty::StaticClass())`. -/
def UProperty.IsA_UNumericProperty : UProperty → Bool
  | .plain _ (.ByteProperty _) => true
  | .plain _ .IntProperty => true
  | .plain _ .FloatProperty => true
  | .plain _ .DoubleProperty => true
  | _ => false

/-- Model of `UNumericProperty::IsInteger()`. -/
def UProperty.IsInteger : UProperty → Bool
  | .plain _ (.ByteProperty _) => true
  | .plain _ .IntProperty => true
  | _ => false

/-- Model of `UNumericProperty::IsEnum()`: a byte property with an enum. -/
def UProperty.IsEnum : UProperty → Bool
  | .plain _ (.ByteProperty (some _)) => true
  | _ => false

/-- Model of `IsA(UFloatProperty::StaticClass())`. -/
def UProperty.IsA_UFloatProperty : UProperty → Bool
  | .plain _ .FloatProperty => true
  | _ => false

/-- Model of `IsA(UStrProperty::StaticClass())`. -/
def UProperty.IsA_UStrProperty : UProperty → Bool
  | .plain _ .StrProperty => true
  | _ => false

/-- Model of `IsA(UNameProperty::StaticClass())`. -/
def UProperty.IsA_UNameProperty : UProperty → Bool
  | .plain _ .NameProperty => true
  | _ => false

/-- Model of `IsA(UBoolProperty::StaticClass())`. -/
def UProperty.IsA_UBoolProperty : UProperty → Bool
  | .plain _ .BoolProperty => true
  | _ => false

/-- The struct of a `UStructProperty`, when `IsA(UStructProperty::StaticClass())`. -/
def UProperty.as_UStructProperty : UProperty → Option UStruct
  | .plain _ (.StructProperty s) => some s
  | _ => none

/-- Model of `IsA(UClassProperty::StaticClass())`. -/
def UProperty.IsA_UClassProperty : UProperty → Bool
  | .plain _ (.ClassProperty _) => true
  | _ => false

/-- The `PropertyClass` of a `UObjectPropertyBase`, when
`IsA(UObjectPropertyBase::StaticClass())`. -/
def UProperty.as_UObjectPropertyBase : UProperty → Option UStruct
  | .plain _ (.ObjectProperty c) => some c
  | .plain _ (.ClassProperty c) => some c
  | .plain _ (.WeakObjectProperty c) => some c
  | .plain _ (.LazyObjectProperty c) => some c
  | .plain _ (.AssetObjectProperty c) => some c
  | .plain _ (.AssetClassProperty c) => some c
  | _ => none

/-- Model of `IsA(ULazyObjectProperty::StaticClass())`. -/
def UProperty.IsA_ULazyObjectProperty : UProperty → Bool
  | .plain _ (.LazyObjectProperty _) => true
  | _ => false

/-- Model of `IsA(UAssetObjectProperty::StaticClass())`. -/
def UProperty.IsA_UAssetObjectProperty : UProperty → Bool
  | .plain _ (.AssetObjectProperty _) => true
  | .plain _ (.AssetClassProperty _) => true
  | _ => false

/-- Model of `IsA(UAssetClassProperty::StaticClass())`. -/
def UProperty.IsA_UAssetClassProperty : UProperty → Bool
  | .plain _ (.AssetClassProperty _) => true
  | _ => false

/-- Model of `IsA(UWeakObjectProperty::StaticClass())`. -/
def UProperty.IsA_UWeakObjectProperty : UProperty → Bool
  | .plain _ (.WeakObjectProperty _) => true
  | _ => false

/-- Translation of `get_enum`: the enum of a byte property, if any. -/
def get_enum : UProperty → Option FString
  | .plain _ (.ByteProperty e) => e
  | _ => none

/-! ## Type mapping -/

/-- Translation of `is_struct_type_supported`. -/
def is_struct_type_supported (struct_p : UStruct) : Bool :=
  decide (struct_p.data.Kind = UStructKind.ScriptStruct)
    && (struct_p.data.HasDefaults || struct_p.data.STRUCT_RequiredAPI)

/-- Translation of `is_pod`. -/
def is_pod (struct_p : UStruct) : Bool :=
  decide (struct_p.data.Kind = UStructKind.ScriptStruct) && struct_p.data.STRUCT_IsPlainOldData

/-- Translation of `does_class_have_static_class`. -/
def does_class_have_static_class (class_p : UStruct) : Bool := class_p.data.CLASS_AnyAPI

/-- Translation of `get_skookum_struct_type`.  The comparisons are comparisons of two
`FName`s, which ignore case. -/
def get_skookum_struct_type (struct_p : UStruct) : eSkTypeID :=
  let struct_name := struct_p.GetName
  if ieq struct_name (TEXT "Vector2D") then SkTypeID_Vector2
  else if ieq struct_name (TEXT "Vector") then SkTypeID_Vector3
  else if ieq struct_name (TEXT "Vector_NetQuantize") then SkTypeID_Vector3
  else if ieq struct_name (TEXT "Vector_NetQuantizeNormal") then SkTypeID_Vector3
  else if ieq struct_name (TEXT "Vector4") then SkTypeID_Vector4
  else if ieq struct_name (TEXT "Quat") then SkTypeID_Rotation
  else if ieq struct_name (TEXT "Rotator") then SkTypeID_RotationAngles
  else if ieq struct_name (TEXT "Transform") then SkTypeID_Transform
  else if ieq struct_name (TEXT "Color") then SkTypeID_Color
  else if ieq struct_name (TEXT "LinearColor") then SkTypeID_Color
  else if is_struct_type_supported struct_p then SkTypeID_UStruct else SkTypeID_None

/-- The hard exclusions tested first by `is_property_type_supported`. -/
def is_excluded_property (property_p : UProperty) : Bool :=
  property_p.CPF_EditorOnly
    || property_p.IsA_ULazyObjectProperty
    || property_p.IsA_UAssetObjectProperty
    || property_p.IsA_UAssetClassProperty
    || property_p.IsA_UWeakObjectProperty

/-- Translation of `get_skookum_property_type`.  In the array case the call
`is_property_type_supported(Inner)` is written out (exclusions, then the type of
`Inner` is not `SkTypeID_None`), which keeps the recursion on the element property. -/
def get_skookum_property_type (property_p : UProperty) : eSkTypeID :=
  -- Check for simple types first
  if property_p.IsA_UNumericProperty && (property_p.IsInteger && !property_p.IsEnum) then
    SkTypeID_Integer
  else if property_p.IsA_UFloatProperty then SkTypeID_Real
  else if property_p.IsA_UStrProperty then SkTypeID_String
  else if property_p.IsA_UNameProperty then SkTypeID_Name
  else if property_p.IsA_UBoolProperty then SkTypeID_Boolean
  else
    -- Any known struct?
    match property_p.as_UStructProperty with
    | some struct_p => get_skookum_struct_type struct_p
    | none =>
      if (get_enum property_p).isSome then SkTypeID_Enum
      else if property_p.IsA_UClassProperty then SkTypeID_UClass
      else
        match property_p.as_UObjectPropertyBase with
        | some class_p =>
          if does_class_have_static_class class_p || ieq class_p.GetName (TEXT "Object")
          then SkTypeID_UObject else SkTypeID_None
        | none =>
          match property_p with
          | .ArrayProperty _ Inner =>
            -- Reject arrays of unknown types and arrays of arrays
            if (!is_excluded_property Inner
                  && decide (get_skookum_property_type Inner ≠ SkTypeID_None))
                && decide (get_skookum_property_type Inner ≠ SkTypeID_List)
            then SkTypeID_List else SkTypeID_None
          -- No known type was found
          | .plain _ _ => SkTypeID_None

/-- Translation of `is_property_type_supported`. -/
def is_property_type_supported (property_p : UProperty) : Bool :=
  if is_excluded_property property_p then false
  else decide (get_skookum_property_type property_p ≠ SkTypeID_None)

/-- Translation of `skookify_method_name`; `return_property_p` is `none` for a null
pointer. -/
def skookify_method_name (name : FString) (return_property_p : Option UProperty) : FString :=
  let method_name := skookify_var_name name false false
  let is_boolean := false
  -- Remove K2 (Kismet 2) prefix if present
  let method_name :=
    if method_name.length > 3 && !IsNumeric (Mid method_name 3 1)
    then (RemoveFromStart method_name (TEXT "k2_")).1 else method_name
  let (method_name, is_boolean) :=
    if method_name.length > 4 && !IsNumeric (Mid method_name 4 1) then
      -- If name starts with "get_", remove it
      if (RemoveFromStart method_name (TEXT "get_")).2 then
        ((RemoveFromStart method_name (TEXT "get_")).1, true)
      -- If name starts with "set_", remove it and append "_set" instead
      else if (RemoveFromStart method_name (TEXT "set_")).2 then
        ((RemoveFromStart method_name (TEXT "set_")).1 ++ TEXT "_set", is_boolean)
      else (method_name, is_boolean)
    else (method_name, is_boolean)
  -- If name starts with "is_", "has_" or "can_" also append question mark
  let is_boolean :=
    if is_b_boolean name
        || StartsWith method_name (TEXT "is_")
        || StartsWith method_name (TEXT "has_")
        || StartsWith method_name (TEXT "can_")
    then true else is_boolean
  -- Append question mark if determined to be boolean
  if is_boolean && (match return_property_p with
                    | some p => p.IsA_UBoolProperty
                    | none => false)
  then method_name ++ TEXT "?" else method_name

/-! ## Class paths -/

/-- The data members of the generator object. -/
structure Data where
  /-- Folder where to place generated script files -/
  m_scripts_path : FString
  /-- Amount of super classes until the script file hierarchy is flattened, an `int32`:
  a value from `-2^31` to `2^31 - 1` -/
  m_scripts_path_depth : Int
  /-- All classes used as types -/
  m_used_classes : List UStruct
  /-- Temp files generated by `save_text_file_if_changed` -/
  m_temp_file_paths : List FString
  deriving DecidableEq, Repr

/-- Translation of `TArray::AddUnique` on an array of pointers: the item is appended
unless already present. -/
def AddUnique {α : Type} [DecidableEq α] (arr : List α) (item : α) : List α :=
  if item ∈ arr then arr else arr ++ [item]

/-- Translation of `TArray<FString>::AddUnique`: the string is appended unless the
array has an element equal to it, which for strings means equal ignoring case. -/
def AddUnique_FString (arr : List FString) (item : FString) : List FString :=
  if arr.any (fun element => ieq element item) then arr else arr ++ [item]

/-- The value of an integer expression in `int32` arithmetic, which wraps around. -/
def int32 (x : Int) : Int := (x + 2 ^ 31) % 2 ^ 32 - 2 ^ 31

/-- Translation of `get_skookum_class_name`. -/
def get_skookum_class_name (class_or_struct_p : UStruct) : FString :=
  skookify_class_name class_or_struct_p.GetName

/-- The loop `while ((super_p = super_p->GetSuperStruct()) != nullptr)` of
`get_skookum_class_path`, started at `super_p`, on the pair of `super_class_stack` (the
names of the pushed objects, first pushed first) and `m_used_classes`. -/
def collect_super_classes :
    UStruct → List FString × List UStruct → List FString × List UStruct
  | .root _, acc => acc
  | .derived _ super_p, (super_class_stack, used_classes) =>
    collect_super_classes super_p
      (super_class_stack ++ [super_p.obj_name], AddUnique used_classes super_p)

/-- The loop `for (i = 0; i < max_super_class_nesting && super_class_stack.Num(); ++i)`
of `get_skookum_class_path`; the first argument is `max_super_class_nesting - i`, the
pair is `class_path` and `super_class_stack`.  `Pop` takes the last element. -/
def nesting_loop : Nat → FString × List FString → FString × List FString
  | 0, st => st
  | n + 1, (class_path, super_class_stack) =>
    match super_class_stack.getLast? with
    | none => (class_path, super_class_stack)
    | some top =>
      nesting_loop n (path_join class_path (skookify_class_name top), super_class_stack.dropLast)

/-- The value of `max_super_class_nesting` in `get_skookum_class_path`; the subtraction
is one of `int32`. -/
def max_super_class_nesting (self : Data) (class_or_struct_p : UStruct) : Int :=
  if class_or_struct_p.is_class then max (int32 (self.m_scripts_path_depth - 1)) 0
  else max (int32 (self.m_scripts_path_depth - 2)) 0

/-- The locals of `get_skookum_class_path` when it reaches its `return`. -/
structure ClassPathLocals where
  /-- the directory built so far -/
  class_path : FString
  /-- the final, possibly dotted, class name -/
  class_name : FString
  /-- the value stored through `out_class_name_p` -/
  out_class_name : FString
  /-- the generator object, with `m_used_classes` updated -/
  self : Data
  deriving DecidableEq, Repr

/-- The body of `get_skookum_class_path` up to its `return` statement. -/
def get_skookum_class_path_locals (self : Data) (class_or_struct_p : UStruct) :
    ClassPathLocals :=
  let is_class := class_or_struct_p.is_class
  -- Remember class name
  let class_name := skookify_class_name class_or_struct_p.obj_name
  let out_class_name := class_name
  -- Make array of the super classes
  let supers := collect_super_classes class_or_struct_p ([], self.m_used_classes)
  -- Build path
  let class_path :=
    path_join self.m_scripts_path (if is_class then TEXT "Object" else TEXT "Object/UStruct")
  let nested :=
    nesting_loop (max_super_class_nesting self class_or_struct_p).toNat (class_path, supers.1)
  let class_name :=
    match nested.2.head? with
    | some bottom => skookify_class_name bottom ++ TEXT "." ++ class_name
    | none => class_name
  { class_path := nested.1, class_name := class_name, out_class_name := out_class_name,
    self := { self with m_used_classes := supers.2 } }

/-- Translation of `get_skookum_class_path`: the returned path `class_path / class_name`. -/
def get_skookum_class_path (self : Data) (class_or_struct_p : UStruct) : FString :=
  let locals := get_skookum_class_path_locals self class_or_struct_p
  path_join locals.class_path locals.class_name

/-- The ancestor chain of a class or struct: immediate parent first, root last. -/
def super_chain : UStruct → List UStruct
  | .root _ => []
  | .derived _ super_p => super_p :: super_chain super_p

/-- The nesting budget in the words of the specification: `D - 1` ancestor levels for a
class and `D - 2` for a plain struct, never less than none; here the subtraction is the
one of the integers. -/
def nesting_budget (D : Int) (is_class : Bool) : Nat :=
  if is_class then (D - 1).toNat else (D - 2).toNat

/-- The base directory in the words of the specification. -/
def base_directory (self : Data) (s : UStruct) : FString :=
  path_join self.m_scripts_path (if s.is_class then TEXT "Object" else TEXT "Object/UStruct")

/-! ## File writer -/

/-- The file system: the content of the file at each path, if there is one. -/
abbrev FileSystem := FString → Option FString

/-- The two errors thrown by the file writer, with the path they report. -/
inductive FError where
  | failed_to_save_file (temp_file_path : FString)
  | could_not_write_file (file_path : FString)
  deriving DecidableEq, Repr

/-- The call `FFileHelper::LoadFileToString(result, path)` on a `result` that is empty
before: the content of the file, and the empty string when there is no file. -/
def LoadFileToString (disk : FileSystem) (path : FString) : FString :=
  match disk path with
  | some content => content
  | none => []

/-- The call `IFileManager::Delete(path)`; deleting a missing file changes nothing. -/
def Delete (disk : FileSystem) (path : FString) : FileSystem :=
  fun q => if q = path then none else disk q

/-- What the generator cannot decide by itself and the platform does during one call of
the file writer: whether a file can be written, whether a file that exists can be moved,
and the content a file holds once a text was written to it with `ForceAnsi`
(`ms_script_file_encoding`). -/
structure Platform where
  /-- whether `FFileHelper::SaveStringToFile` to this path succeeds -/
  can_save : FString → Bool
  /-- whether `IFileManager::Move` to the first path of the existing file at the second
  path succeeds -/
  can_move : FString → FString → Bool
  /-- the content read back from a file to which the text was written as ANSI -/
  ansi : FString → FString

/-- The call `FFileHelper::SaveStringToFile(contents, path, ForceAnsi)`: when the write
succeeds the file holds the ANSI form of `contents`, otherwise the call returns false,
which is `none` here. -/
def SaveStringToFile (os : Platform) (disk : FileSystem) (contents path : FString) :
    Option FileSystem :=
  if os.can_save path then some (fun q => if q = path then some (os.ansi contents) else disk q)
  else none

/-- The call `IFileManager::Move(dest, src, true, true)`: it fails when there is no file
at `src` or when the platform refuses the move; otherwise the file is at `dest`
afterwards, replacing what was there, and no longer at `src`. -/
def Move (os : Platform) (disk : FileSystem) (dest src : FString) : Option FileSystem :=
  match disk src with
  | none => none
  | some content =>
    if os.can_move dest src
    then some (fun q => if q = dest then some content else if q = src then none else disk q)
    else none

/-- Translation of `save_text_file_if_changed`: the returned flag with the generator
object and the file system after the call, or the error thrown. -/
def save_text_file_if_changed (os : Platform) (self : Data) (disk : FileSystem)
    (file_path new_file_contents : FString) : Except FError (Bool × Data × FileSystem) :=
  let original_file_local := LoadFileToString disk file_path
  let has_changed :=
    decide (original_file_local.length = 0) || decide (original_file_local ≠ new_file_contents)
  if has_changed then
    -- save the updated version to a tmp file so that the user can see what will be changing
    let temp_file_path := file_path ++ TEXT ".tmp"
    -- delete any existing temp file
    let disk1 := Delete disk temp_file_path
    match SaveStringToFile os disk1 new_file_contents temp_file_path with
    | none => .error (FError.failed_to_save_file temp_file_path)
    | some disk2 =>
      .ok (has_changed,
           { self with
             m_temp_file_paths := AddUnique_FString self.m_temp_file_paths temp_file_path },
           disk2)
  else .ok (has_changed, self, disk)

/-- The loop of `flush_saved_text_files` over the temp file paths still to be moved. -/
def flush_loop (os : Platform) : List FString → FileSystem → Except FError FileSystem
  | [], disk => .ok disk
  | temp_file_path :: rest, disk =>
    let file_path := Replace temp_file_path (TEXT ".tmp") (TEXT "")
    match Move os disk file_path temp_file_path with
    | none => .error (FError.could_not_write_file file_path)
    | some disk1 => flush_loop os rest disk1

/-- Translation of `flush_saved_text_files`. -/
def flush_saved_text_files (os : Platform) (self : Data) (disk : FileSystem) :
    Except FError (Data × FileSystem) :=
  match flush_loop os self.m_temp_file_paths disk with
  | .error e => .error e
  | .ok disk1 => .ok ({ self with m_temp_file_paths := [] }, disk1)

/-- Two calls of `save_text_file_if_changed` in a row with the same arguments: the
outcome of the second call, or the error thrown by the first.  `os1` is the platform as
it behaves during the first call and `os2` as it behaves during the second. -/
def save_text_file_if_changed_twice (os1 os2 : Platform) (self : Data) (disk : FileSystem)
    (file_path new_file_contents : FString) : Except FError (Bool × Data × FileSystem) :=
  match save_text_file_if_changed os1 self disk file_path new_file_contents with
  | .error e => .error e
  | .ok (_, self1, disk1) =>
    save_text_file_if_changed os2 self1 disk1 file_path new_file_contents

/-! ## Auxiliary definitions for the renamer -/

/-- The characters appended by the scanning loop of `skookify_var_name` on the rest of
the name, from the flags `was_upper` and `was_underscore`. -/
def scan_emit : Bool → Bool → FString → FString
  | _, _, [] => []
  | was_upper, was_underscore, c :: cs =>
    if c = '?' then scan_emit was_upper was_underscore cs
    else if c = ' ' ∨ c = ':' ∨ c = '_' then
      if !was_underscore then '_' :: scan_emit was_upper true cs
      else scan_emit was_upper was_underscore cs
    else
      (if (isupper c || isdigit c) && !was_upper && !was_underscore then ['_'] else [])
        ++ tolower c :: scan_emit (isupper c || isdigit c) false cs

/-- A name as the scanning loop leaves it: no question mark, space, colon or upper case
letter, and no underscore at the start (when `after_underscore` is set) or after an
underscore. -/
def tidy : Bool → FString → Bool
  | _, [] => true
  | after_underscore, c :: cs =>
    if c = '_' then !after_underscore && tidy true cs
    else (decide (c ≠ '?') && decide (c ≠ ' ') && decide (c ≠ ':') && !isupper c) && tidy false cs

/-- Every digit of the name is acceptable where it stands: it is the first character
(when `ok` is set) or it follows a digit or an underscore. -/
def digits_separated : Bool → FString → Bool
  | _, [] => true
  | ok, c :: cs => (!isdigit c || ok) && digits_separated (isdigit c || c == '_') cs

/-! ## Concrete objects used as instances -/

/-- A generator object with nothing staged and nothing used, for the given depth. -/
def example_generator (depth : Int) : Data :=
  { m_scripts_path := TEXT "Scripts", m_scripts_path_depth := depth,
    m_used_classes := [], m_temp_file_paths := [] }

/-- A class object of the given name with no blueprint; the names used below differ in
length, which serves as address. -/
def example_class_data (name : String) : UStructData :=
  { Address := name.length, Name := TEXT name, Kind := UStructKind.Class, HasDefaults := false,
    STRUCT_RequiredAPI := false, STRUCT_IsPlainOldData := false, CLASS_AnyAPI := true,
    Blueprint := none }

/-- The class chain `Character` : `Pawn` : `Actor` : `Object`. -/
def example_character : UStruct :=
  .derived (example_class_data "Character")
    (.derived (example_class_data "Pawn")
      (.derived (example_class_data "Actor") (.root (example_class_data "Object"))))

/-- The class `Pawn` of that chain. -/
def example_pawn : UStruct :=
  .derived (example_class_data "Pawn")
    (.derived (example_class_data "Actor") (.root (example_class_data "Object")))

/-- The ANSI form of a character: itself up to code 127, and `?` beyond. -/
def ansi_char (c : Char) : Char := if c.toNat ≤ 127 then c else '?'

/-- A platform on which every write and every move succeeds. -/
def reliable_platform : Platform :=
  { can_save := fun _ => true, can_move := fun _ _ => true,
    ansi := fun text => text.map ansi_char }

/-- A platform on which no file can be written. -/
def read_only_platform : Platform :=
  { can_save := fun _ => false, can_move := fun _ _ => false,
    ansi := fun text => text.map ansi_char }

/-- The empty file system. -/
def empty_disk : FileSystem := fun _ => none

/-- A file system with the file `A.sk` holding `old`. -/
def disk_with_old_file : FileSystem :=
  fun q => if q = TEXT "A.sk" then some (TEXT "old") else none

/-- A file system with the file `A.sk` holding `x` and a staged temp file for `B.sk`. -/
def disk_with_staged_file : FileSystem :=
  fun q => if q = TEXT "A.sk" then some (TEXT "x")
    else if q = TEXT "B.sk.tmp" then some (TEXT "y") else none

/-- The generator object that has staged the temp file for `B.sk`. -/
def generator_with_staged_file : Data :=
  { m_scripts_path := TEXT "Scripts", m_scripts_path_depth := 4,
    m_used_classes := [], m_temp_file_paths := [TEXT "B.sk.tmp"] }

/-! ## Type names and method paths -/

/-- Names belonging to the type ids (`ms_sk_type_id_names`, indexed by the id). -/
def ms_sk_type_id_names : eSkTypeID → FString
  | SkTypeID_None => TEXT "nil"
  | SkTypeID_Integer => TEXT "Integer"
  | SkTypeID_Real => TEXT "Real"
  | SkTypeID_Boolean => TEXT "Boolean"
  | SkTypeID_String => TEXT "String"
  | SkTypeID_Vector2 => TEXT "Vector2"
  | SkTypeID_Vector3 => TEXT "Vector3"
  | SkTypeID_Vector4 => TEXT "Vector4"
  | SkTypeID_Rotation => TEXT "Rotation"
  | SkTypeID_RotationAngles => TEXT "RotationAngles"
  | SkTypeID_Transform => TEXT "Transform"
  | SkTypeID_Color => TEXT "Color"
  | SkTypeID_Name => TEXT "Name"
  | SkTypeID_Enum => TEXT "Enum"
  | SkTypeID_UStruct => TEXT "UStruct"
  | SkTypeID_UClass => TEXT "EntityClass"
  | SkTypeID_UObject => TEXT "Entity"
  | SkTypeID_List => TEXT "List"

/-- Translation of `get_skookum_property_type_name_existing`.  The `Printf` of
`List{%s}` is the concatenation of the three parts.  Each cast of the source succeeds
when the type id is the one tested before it; the branches for a failed cast are there
to make the function total and are never taken. -/
def get_skookum_property_type_name_existing (property_p : UProperty) : FString :=
  let type_id := get_skookum_property_type property_p
  if type_id = SkTypeID_UObject then
    match property_p.as_UObjectPropertyBase with
    | some class_p => skookify_class_name class_p.GetName
    | none => []
  else if type_id = SkTypeID_UStruct then
    match property_p.as_UStructProperty with
    | some struct_p => skookify_class_name struct_p.GetName
    | none => []
  else if type_id = SkTypeID_Enum then
    match get_enum property_p with
    | some enum_name => enum_name
    | none => []
  else if type_id = SkTypeID_List then
    match property_p with
    | .ArrayProperty _ Inner =>
      TEXT "List\x7b" ++ get_skookum_property_type_name_existing Inner ++ TEXT "\x7d"
    | .plain _ _ => []
  else ms_sk_type_id_names type_id

/-- Translation of `get_skookum_method_path`. -/
def get_skookum_method_path (self : Data) (class_or_struct_p : UStruct)
    (script_function_name : FString) (is_static : Bool) : FString :=
  path_join (get_skookum_class_path self class_or_struct_p)
    (Replace script_function_name (TEXT "?") (TEXT "-Q")
      ++ (if is_static then TEXT "()C.sk" else TEXT "().sk"))

/-- The function name in the words of the specification: every `?` replaced by `-Q`,
every other character kept. -/
def question_marks_replaced : FString → FString
  | [] => []
  | c :: cs => if c = '?' then '-' :: 'Q' :: question_marks_replaced cs
    else c :: question_marks_replaced cs

/-- The table of well-known structs in the words of the specification: the ten names
with their fixed type. -/
def well_known_struct_types : List (FString × eSkTypeID) :=
  [ (TEXT "Vector2D", SkTypeID_Vector2),
    (TEXT "Vector", SkTypeID_Vector3),
    (TEXT "Vector_NetQuantize", SkTypeID_Vector3),
    (TEXT "Vector_NetQuantizeNormal", SkTypeID_Vector3),
    (TEXT "Vector4", SkTypeID_Vector4),
    (TEXT "Quat", SkTypeID_Rotation),
    (TEXT "Rotator", SkTypeID_RotationAngles),
    (TEXT "Transform", SkTypeID_Transform),
    (TEXT "Color", SkTypeID_Color),
    (TEXT "LinearColor", SkTypeID_Color) ]

/-- The local `method_name` of `skookify_method_name` after the removal of the K2
prefix. -/
def method_name_k2 (name : FString) : FString :=
  let method_name := skookify_var_name name false false
  if method_name.length > 3 && !IsNumeric (Mid method_name 3 1)
  then (RemoveFromStart method_name (TEXT "k2_")).1 else method_name

/-- The locals `method_name` and `is_boolean` of `skookify_method_name` after the
handling of `get_` and `set_`. -/
def method_name_get_set (name : FString) : FString × Bool :=
  let method_name := method_name_k2 name
  if method_name.length > 4 && !IsNumeric (Mid method_name 4 1) then
    if (RemoveFromStart method_name (TEXT "get_")).2 then
      ((RemoveFromStart method_name (TEXT "get_")).1, true)
    else if (RemoveFromStart method_name (TEXT "set_")).2 then
      ((RemoveFromStart method_name (TEXT "set_")).1 ++ TEXT "_set", false)
    else (method_name, false)
  else (method_name, false)

/-- The locals `method_name` and `is_boolean` of `skookify_method_name` when the final
test is reached. -/
def method_name_and_flag (name : FString) : FString × Bool :=
  let locals := method_name_get_set name
  (locals.1,
   if is_b_boolean name
       || StartsWith locals.1 (TEXT "is_")
       || StartsWith locals.1 (TEXT "has_")
       || StartsWith locals.1 (TEXT "can_")
   then true else locals.2)

/-- An ASCII letter. -/
def is_letter (c : Char) : Bool :=
  decide (65 ≤ c.toNat ∧ c.toNat ≤ 90) || decide (97 ≤ c.toNat ∧ c.toNat ≤ 122)

/-- The struct `MyStruct`, a script struct with defaults. -/
def example_struct : UStruct :=
  .root { Address := 100, Name := TEXT "MyStruct", Kind := UStructKind.ScriptStruct, HasDefaults := true,
          STRUCT_RequiredAPI := false, STRUCT_IsPlainOldData := false, CLASS_AnyAPI := false,
          Blueprint := none }

/-- A file system with the empty file `A.sk`. -/
def disk_with_empty_file : FileSystem :=
  fun q => if q = TEXT "A.sk" then some [] else none

/-! ## Script path depth -/

/-- Translation of `compute_scripts_path_depth`.  The reading of the ini file, the
regular expression and `Atoi` belong to the engine; their outcome is the argument
`ini_path_depth`: the number parsed from the first capture group when the file could be
read and the overlay entry was found, and `none` otherwise; as the result of `Atoi` it
is an `int32`.  The result is the returned flag and the generator object after the
call. -/
def compute_scripts_path_depth (self : Data) (ini_path_depth : Option Int) : Bool × Data :=
  -- Set to sensible default in case we do not find it in the ini file
  let self := { self with m_scripts_path_depth := 4 }
  match ini_path_depth with
  | some path_depth =>
    if path_depth > 0 then (true, { self with m_scripts_path_depth := path_depth })
    else (false, self)
  | none => (false, self)

/-- A script struct without defaults and without the required-API flag, under the name
`ROTATOR`. -/
def example_struct_upper_case : UStruct :=
  .root { Address := 101, Name := TEXT "ROTATOR", Kind := UStructKind.ScriptStruct,
          HasDefaults := false, STRUCT_RequiredAPI := false, STRUCT_IsPlainOldData := false,
          CLASS_AnyAPI := false, Blueprint := none }

/-- A script struct with defaults under the name `vector`. -/
def example_struct_lower_case : UStruct :=
  .root { Address := 102, Name := TEXT "vector", Kind := UStructKind.ScriptStruct,
          HasDefaults := true, STRUCT_RequiredAPI := false, STRUCT_IsPlainOldData := false,
          CLASS_AnyAPI := false, Blueprint := none }

/-! # Theorems -/

set_option maxRecDepth 100000

/-! ## The scanning loop -/

theorem foldl_scan_step (cs : FString) (st : ScanState) :
    (cs.foldl scan_step st).skookum_name
      = st.skookum_name ++ scan_emit st.was_upper st.was_underscore cs := by
  induction cs generalizing st with
  | nil => simp [scan_emit]
  | cons c cs ih =>
    rw [List.foldl_cons, ih, scan_emit]
    unfold scan_step
    by_cases h1 : c = '?'
    · simp [h1]
    · by_cases h2 : c = ' ' ∨ c = ':' ∨ c = '_'
      · cases hu : st.was_underscore <;> simp [h1, h2, hu]
      · by_cases h3 : ((isupper c || isdigit c) && !st.was_upper && !st.was_underscore) = true
        · simp only [h1, h2, h3, if_true, if_false]
          simp
        · simp only [h1, h2, h3, if_false]
          simp

theorem scan_name_eq (name : FString) :
    scan_name name false
      = scan_emit true true (name.drop (if is_b_boolean name then 1 else 0)) := by
  simp [scan_name, foldl_scan_step]

theorem scan_name_member_eq (name : FString) :
    scan_name name true
      = '@' :: scan_emit true true (name.drop (if is_b_boolean name then 1 else 0)) := by
  simp [scan_name, foldl_scan_step]

/-! ## Characters -/

theorem upper_cases (c : Char) (h : isupper c = true) (P : Char → Prop)
    (hP : ∀ n, 65 ≤ n → n ≤ 90 → P (Char.ofNat n)) : P c := by
  have hc := Char.ofNat_toNat c
  simp only [isupper, decide_eq_true_eq] at h
  rw [← hc]
  exact hP _ h.1 h.2

theorem tolower_of_not_upper (c : Char) (h : isupper c = false) : tolower c = c := by
  simp [tolower, h]

theorem tolower_ofNat_facts (n : Nat) (h1 : 65 ≤ n) (h2 : n ≤ 90) :
    isupper (tolower (Char.ofNat n)) = false ∧ tolower (Char.ofNat n) ≠ '_'
      ∧ tolower (Char.ofNat n) ≠ '?' ∧ tolower (Char.ofNat n) ≠ ' '
      ∧ tolower (Char.ofNat n) ≠ ':'
      ∧ isdigit (tolower (Char.ofNat n)) = false ∧ isdigit (Char.ofNat n) = false := by
  interval_cases n <;> decide

theorem tolower_not_upper (c : Char) : isupper (tolower c) = false := by
  cases h : isupper c
  · rw [tolower_of_not_upper c h, h]
  · exact upper_cases c h (fun c => isupper (tolower c) = false)
      (fun n h1 h2 => (tolower_ofNat_facts n h1 h2).1)

theorem tolower_ne_special (c : Char) (h1 : c ≠ '?') (h2 : c ≠ ' ') (h3 : c ≠ ':')
    (h4 : c ≠ '_') :
    tolower c ≠ '_' ∧ tolower c ≠ '?' ∧ tolower c ≠ ' ' ∧ tolower c ≠ ':' := by
  cases h : isupper c
  · rw [tolower_of_not_upper c h]; exact ⟨h4, h1, h2, h3⟩
  · exact upper_cases c h
      (fun c => tolower c ≠ '_' ∧ tolower c ≠ '?' ∧ tolower c ≠ ' ' ∧ tolower c ≠ ':')
      (fun n h1 h2 => ⟨(tolower_ofNat_facts n h1 h2).2.1, (tolower_ofNat_facts n h1 h2).2.2.1,
        (tolower_ofNat_facts n h1 h2).2.2.2.1, (tolower_ofNat_facts n h1 h2).2.2.2.2.1⟩)

/-! ## Names left by the scanning loop -/

theorem tidy_scan_emit (name : FString) (was_upper was_underscore : Bool) :
    tidy was_underscore (scan_emit was_upper was_underscore name) = true := by
  induction name generalizing was_upper was_underscore with
  | nil => simp [scan_emit, tidy]
  | cons c cs ih =>
    rw [scan_emit]
    by_cases h1 : c = '?'
    · simp only [h1, if_true]; exact ih _ _
    · by_cases h2 : c = ' ' ∨ c = ':' ∨ c = '_'
      · cases hu : was_underscore
        · simp only [h1, h2, if_true, if_false, Bool.not_false, tidy]
          simp [ih]
        · simp only [h1, h2, if_true, if_false, Bool.not_true]
          exact ih _ _
      · have hs : c ≠ ' ' ∧ c ≠ ':' ∧ c ≠ '_' := by
          refine ⟨fun h => h2 (Or.inl h), fun h => h2 (Or.inr (Or.inl h)),
            fun h => h2 (Or.inr (Or.inr h))⟩
        obtain ⟨t1, t2, t3, t4⟩ := tolower_ne_special c h1 hs.1 hs.2.1 hs.2.2
        have t5 := tolower_not_upper c
        simp only [h1, h2, if_false]
        rcases Bool.eq_false_or_eq_true
          ((isupper c || isdigit c) && !was_upper && !was_underscore) with h3 | h3
        · have hu : was_underscore = false := by
            revert h3; cases was_underscore <;> simp
          subst hu
          rw [if_pos h3]
          simp [tidy, t1, t2, t3, t4, t5, ih]
        · rw [if_neg (by simp [h3])]
          cases was_underscore <;> simp [tidy, t1, t2, t3, t4, t5, ih]

theorem tidy_weaken (s : FString) (b : Bool) (h : tidy b s = true) : tidy false s = true := by
  cases s with
  | nil => simp [tidy]
  | cons c cs =>
    rw [tidy] at h ⊢
    by_cases hc : c = '_'
    · simp only [hc, if_true] at h ⊢
      simp only [Bool.and_eq_true] at h
      simp [h.2]
    · simpa [hc] using h

theorem tidy_take (s : FString) (b : Bool) (m : Nat) (h : tidy b s = true) :
    tidy b (s.take m) = true := by
  induction s generalizing b m with
  | nil => simpa using h
  | cons c cs ih =>
    cases m with
    | zero => simp [tidy]
    | succ m =>
      rw [List.take_succ_cons, tidy]
      rw [tidy] at h
      by_cases hc : c = '_'
      · simp only [hc, if_true, Bool.and_eq_true] at h ⊢
        exact ⟨h.1, ih _ _ h.2⟩
      · simp only [hc, if_false, Bool.and_eq_true] at h ⊢
        exact ⟨h.1, ih _ _ h.2⟩

theorem scan_emit_fixed (s : FString) (was_upper was_underscore : Bool)
    (ht : tidy was_underscore s = true)
    (hd : digits_separated (was_upper || was_underscore) s = true) :
    scan_emit was_upper was_underscore s = s := by
  induction s generalizing was_upper was_underscore with
  | nil => simp [scan_emit]
  | cons c cs ih =>
    rw [tidy] at ht
    rw [digits_separated] at hd
    rw [scan_emit]
    by_cases hc : c = '_'
    · subst hc
      simp only [if_true, Bool.and_eq_true] at ht
      have hu : was_underscore = false := by simpa using ht.1
      subst hu
      have hd2 : digits_separated (was_upper || true) cs = true := by
        simp only [Bool.and_eq_true] at hd
        simpa using hd.2
      have := ih was_upper true ht.2 hd2
      simp [this]
    · simp only [hc, if_false, Bool.and_eq_true, decide_eq_true_eq, Bool.not_eq_true'] at ht
      obtain ⟨⟨⟨⟨q1, q2⟩, q3⟩, q4⟩, q5⟩ := ht
      simp only [Bool.and_eq_true, Bool.or_eq_true, Bool.not_eq_true'] at hd
      have hd2 : digits_separated (isdigit c || false) cs = true := by
        have hb : (c == '_') = false := beq_eq_false_iff_ne.mpr hc
        have := hd.2
        rw [hb] at this
        exact this
      have ih2 := ih (isupper c || isdigit c) false q5 (by simpa [q4] using hd2)
      have hno : ((isupper c || isdigit c) && !was_upper && !was_underscore) = false := by
        rcases hd.1 with h | h
        · simp [q4, h]
        · rcases h with h | h <;> simp [h]
      simp [q1, q2, q3, hc, hno, ih2, tolower_of_not_upper c q4]

/-! ## Results of `skookify_var_name` -/

theorem chop_md5_cases (s : FString) : chop_md5 s = s ∨ chop_md5 s = s.take (s.length - 33) := by
  unfold chop_md5
  simp only
  split_ifs <;> simp

theorem skookify_var_name_unfold (name : FString) (h : name ≠ []) :
    skookify_var_name name false false
      = chop_md5 (escape_keyword
          (scan_emit true true (name.drop (if is_b_boolean name then 1 else 0)))) := by
  cases name with
  | nil => exact absurd rfl h
  | cons c cs => simp [skookify_var_name, scan_name_eq]

theorem tidy_chars (s : FString) (b : Bool) (h : tidy b s = true) :
    ∀ c ∈ s, c ≠ '?' ∧ c ≠ ' ' ∧ c ≠ ':' ∧ isupper c = false := by
  induction s generalizing b with
  | nil => intro c hc; simp at hc
  | cons a s ih =>
    intro c hc
    rw [tidy] at h
    by_cases ha : a = '_'
    · simp only [ha, if_true, Bool.and_eq_true] at h
      rcases List.mem_cons.mp hc with e | e
      · subst e; subst ha; decide
      · exact ih _ h.2 c e
    · simp only [ha, if_false, Bool.and_eq_true, decide_eq_true_eq, Bool.not_eq_true'] at h
      rcases List.mem_cons.mp hc with e | e
      · subst e; exact ⟨h.1.1.1.1, h.1.1.1.2, h.1.1.2, h.1.2⟩
      · exact ih _ h.2 c e

theorem tidy_map_tolower (s : FString) (b : Bool) (h : tidy b s = true) :
    s.map tolower = s := by
  have hc := tidy_chars s b h
  clear h
  induction s with
  | nil => rfl
  | cons a s ih =>
    rw [List.map_cons, tolower_of_not_upper a (hc a (List.mem_cons_self _ _)).2.2.2,
      ih (fun c hm => hc c (List.mem_cons_of_mem _ hm))]

theorem ms_reserved_keywords_lower :
    ∀ k ∈ ms_reserved_keywords, k.map tolower = k := by
  decide

theorem escape_keyword_of_tidy (s : FString) (b : Bool) (h : tidy b s = true) :
    escape_keyword s = if s ∈ ms_reserved_keywords then s ++ ['_'] else s := by
  have hany : ms_reserved_keywords.any (fun keyword => ieq s keyword) = true
      ↔ s ∈ ms_reserved_keywords := by
    rw [List.any_eq_true]
    constructor
    · rintro ⟨k, hk, he⟩
      rw [ieq, tidy_map_tolower s b h, ms_reserved_keywords_lower k hk] at he
      rw [eq_of_beq he]
      exact hk
    · intro hs
      exact ⟨s, hs, by simp [ieq]⟩
  unfold escape_keyword
  by_cases hs : s ∈ ms_reserved_keywords
  · rw [if_pos (hany.mpr hs), if_pos hs]
  · rw [if_neg (fun hc => hs (hany.mp hc)), if_neg hs]

theorem tidy_keyword_escaped :
    ∀ k ∈ ms_reserved_keywords, tidy true (k ++ ['_']) = true := by
  decide

theorem tidy_escape_keyword (s : FString) (h : tidy true s = true) :
    tidy true (escape_keyword s) = true := by
  rw [escape_keyword_of_tidy s true h]
  split_ifs with hk
  · exact tidy_keyword_escaped s hk
  · exact h

theorem tidy_chop_md5 (s : FString) (h : tidy true s = true) : tidy true (chop_md5 s) = true := by
  rcases chop_md5_cases s with e | e <;> rw [e]
  · exact h
  · exact tidy_take s true _ h

theorem tidy_skookify_var_name (name : FString) :
    tidy true (skookify_var_name name false false) = true := by
  by_cases h : name = []
  · subst h; decide
  · rw [skookify_var_name_unfold name h]
    exact tidy_chop_md5 _ (tidy_escape_keyword _ (tidy_scan_emit _ _ _))

theorem is_b_boolean_of_tidy (s : FString) (b : Bool) (h : tidy b s = true) :
    is_b_boolean s = false := by
  match s, h with
  | [], _ => rfl
  | [_], _ => rfl
  | [_, _], _ => rfl
  | c0 :: c1 :: c2 :: cs, h =>
    have h1 : tidy false (c1 :: c2 :: cs) = true := by
      rw [tidy] at h
      by_cases hc : c0 = '_'
      · simp only [hc, if_true, Bool.and_eq_true] at h
        exact tidy_weaken _ _ h.2
      · simp only [hc, if_false, Bool.and_eq_true] at h
        exact h.2
    have h2 : isupper c1 = false := by
      rw [tidy] at h1
      by_cases hc : c1 = '_'
      · subst hc; decide
      · simp only [hc, if_false, Bool.and_eq_true, Bool.not_eq_true'] at h1
        exact h1.1.2
    simp [is_b_boolean, h2]

theorem skookify_var_name_fixed (r : FString) (ht : tidy true r = true)
    (hd : digits_separated true r = true) (hk : r ∉ ms_reserved_keywords)
    (hm : chop_md5 r = r) : skookify_var_name r false false = r := by
  by_cases h : r = []
  · subst h; rfl
  · rw [skookify_var_name_unfold r h, is_b_boolean_of_tidy r true ht]
    simp only [Bool.false_eq_true, if_false, List.drop_zero]
    rw [scan_emit_fixed r true true ht (by simpa using hd)]
    simp only [escape_keyword_of_tidy r true ht, hk, if_false]
    exact hm

theorem scan_emit_diverges (r : FString) (was_upper was_underscore : Bool)
    (ht : tidy was_underscore r = true)
    (hd : digits_separated (was_upper || was_underscore) r = false) :
    ∃ (j : Nat) (d : Char), r[j]? = some d ∧ isdigit d = true
      ∧ (scan_emit was_upper was_underscore r)[j]? = some '_' := by
  induction r generalizing was_upper was_underscore with
  | nil => simp [digits_separated] at hd
  | cons c cs ih =>
    rw [tidy] at ht
    rw [digits_separated] at hd
    rw [scan_emit]
    by_cases hc : c = '_'
    · subst hc
      simp only [if_true, Bool.and_eq_true] at ht
      have hu : was_underscore = false := by simpa using ht.1
      subst hu
      have hd2 : digits_separated (was_upper || true) cs = false := by
        have h0 : isdigit '_' = false := by decide
        simpa [h0] using hd
      obtain ⟨j, d, h1, h2, h3⟩ := ih was_upper true ht.2 hd2
      refine ⟨j + 1, d, by simpa using h1, h2, ?_⟩
      simpa using h3
    · simp only [hc, if_false, Bool.and_eq_true, decide_eq_true_eq, Bool.not_eq_true'] at ht
      obtain ⟨⟨⟨⟨q1, q2⟩, q3⟩, q4⟩, q5⟩ := ht
      have hb : (c == '_') = false := beq_eq_false_iff_ne.mpr hc
      rw [hb] at hd
      have hsep : ¬ (c = ' ' ∨ c = ':' ∨ c = '_') := by
        rintro (h | h | h)
        · exact q2 h
        · exact q3 h
        · exact hc h
      rw [if_neg q1, if_neg hsep]
      by_cases hhead : (!isdigit c || (was_upper || was_underscore)) = true
      · have hd2 : digits_separated (isdigit c || false) cs = false := by
          simpa [hhead] using hd
        obtain ⟨j, d, h1, h2, h3⟩ := ih (isdigit c) false q5 hd2
        have hno : ((isupper c || isdigit c) && !was_upper && !was_underscore) = false := by
          simp only [Bool.or_eq_true, Bool.not_eq_true'] at hhead
          rcases hhead with h | h
          · simp [q4, h]
          · rcases h with h | h <;> simp [h]
        refine ⟨j + 1, d, by simpa using h1, h2, ?_⟩
        rw [if_neg (by simp [hno]), tolower_of_not_upper c q4, q4]
        simpa using h3
      · have hhead2 : isdigit c = true ∧ was_upper = false ∧ was_underscore = false := by
          revert hhead
          cases isdigit c <;> cases was_upper <;> cases was_underscore <;> simp
        obtain ⟨e1, e2, e3⟩ := hhead2
        refine ⟨0, c, by simp, e1, ?_⟩
        rw [if_pos (by simp [e1, e2, e3])]
        simp

theorem skookify_var_name_of_tidy (r : FString) (ht : tidy true r = true) (h : r ≠ []) :
    skookify_var_name r false false = chop_md5 (escape_keyword (scan_emit true true r)) := by
  rw [skookify_var_name_unfold r h, is_b_boolean_of_tidy r true ht]
  simp

theorem skookify_var_name_moves (r : FString) (ht : tidy true r = true)
    (hd : digits_separated true r = false) : skookify_var_name r false false ≠ r := by
  have hne : r ≠ [] := by
    intro h; subst h; simp [digits_separated] at hd
  rw [skookify_var_name_of_tidy r ht hne]
  obtain ⟨j, d, h1, h2, h3⟩ := scan_emit_diverges r true true ht (by simpa using hd)
  intro heq
  have hx : ∀ x : FString, (x = scan_emit true true r ∨ x = scan_emit true true r ++ ['_']) →
      ∀ m, x.take m = r → False := by
    intro x hx m hm
    have hj : (x.take m)[j]? = some d := by rw [hm]; exact h1
    have hxj : x[j]? = some '_' := by
      rcases hx with e | e
      · rw [e]; exact h3
      · rw [e]
        have hlt : j < (scan_emit true true r).length := by
          by_contra hge
          rw [List.getElem?_eq_none (by omega)] at h3
          exact absurd h3 (by simp)
        rw [List.getElem?_append_left hlt]; exact h3
    rw [List.getElem?_take] at hj
    split_ifs at hj
    · rw [hxj] at hj
      have : d = '_' := by simpa using hj.symm
      subst this
      exact absurd h2 (by decide)
  have hesc : escape_keyword (scan_emit true true r) = scan_emit true true r
      ∨ escape_keyword (scan_emit true true r) = scan_emit true true r ++ ['_'] := by
    unfold escape_keyword
    split_ifs <;> simp
  rcases chop_md5_cases (escape_keyword (scan_emit true true r)) with e | e
  · rw [e] at heq
    exact hx _ hesc (escape_keyword (scan_emit true true r)).length (by rw [List.take_length]; exact heq)
  · rw [e] at heq
    exact hx _ hesc _ heq

theorem skookify_var_name_keyword_moves :
    ∀ k ∈ ms_reserved_keywords, skookify_var_name k false false ≠ k := by
  decide

theorem skookify_var_name_eq_chop_of_settled (r : FString) (ht : tidy true r = true)
    (hd : digits_separated true r = true) (hk : r ∉ ms_reserved_keywords) :
    skookify_var_name r false false = chop_md5 r := by
  by_cases h : r = []
  · subst h; rfl
  · rw [skookify_var_name_of_tidy r ht h, scan_emit_fixed r true true ht (by simpa using hd)]
    simp only [escape_keyword_of_tidy r true ht, hk, if_false]

/-- C1 (as the code has it): applied to its own result `r`, `skookify_var_name(., false,
false)` returns `r` again exactly when every digit of `r` is its first character or
follows a digit or an underscore, `r` is not a reserved keyword, and the checksum chop
leaves `r` as it is. -/
theorem skookify_var_name_idempotent_iff (n : FString) :
    skookify_var_name (skookify_var_name n false false) false false
        = skookify_var_name n false false
      ↔ (digits_separated true (skookify_var_name n false false) = true
          ∧ skookify_var_name n false false ∉ ms_reserved_keywords
          ∧ chop_md5 (skookify_var_name n false false) = skookify_var_name n false false) := by
  have ht := tidy_skookify_var_name n
  constructor
  · intro h
    have hd : digits_separated true (skookify_var_name n false false) = true := by
      by_contra hd
      exact skookify_var_name_moves _ ht (by simpa using hd) h
    have hk : skookify_var_name n false false ∉ ms_reserved_keywords :=
      fun hk => skookify_var_name_keyword_moves _ hk h
    refine ⟨hd, hk, ?_⟩
    rw [← skookify_var_name_eq_chop_of_settled _ ht hd hk]
    exact h
  · rintro ⟨hd, hk, hm⟩
    exact skookify_var_name_fixed _ ht hd hk hm

/-- C1, an instance: `Item2Count` gives `item_2count`, which the renamer returns
unchanged. -/
theorem skookify_var_name_idempotent_iff_witness :
    skookify_var_name (TEXT "Item2Count") false false = TEXT "item_2count"
    ∧ skookify_var_name (skookify_var_name (TEXT "Item2Count") false false) false false
      = skookify_var_name (TEXT "Item2Count") false false :=
  ⟨by decide,
   (skookify_var_name_idempotent_iff (TEXT "Item2Count")).mpr
     ⟨by decide, by decide, by decide⟩⟩

theorem skookify_var_name_chop_reveals_keyword :
    skookify_var_name (TEXT "If_aaaaaaaaaaaaaaaaaaaaaaaaaaaaaaaa") false false = TEXT "if"
    ∧ skookify_var_name (TEXT "if") false false = TEXT "if_" := by
  decide

/-- C1 (refuted as stated): on the name `A1` the second application inserts an underscore
before the digit, `a1` becomes `a_1`. -/
theorem skookify_var_name_not_idempotent :
    skookify_var_name (TEXT "A1") false false = TEXT "a1"
    ∧ skookify_var_name (skookify_var_name (TEXT "A1") false false) false false = TEXT "a_1"
    ∧ skookify_var_name (skookify_var_name (TEXT "A1") false false) false false
        ≠ skookify_var_name (TEXT "A1") false false := by
  decide

/-! ## Method names -/

theorem skookify_method_name_not_boolean (name : FString) (return_property_p : Option UProperty)
    (h : ∀ p, return_property_p = some p → p.IsA_UBoolProperty = false) :
    skookify_method_name name return_property_p = skookify_method_name name none := by
  cases return_property_p with
  | none => rfl
  | some p =>
    have hp := h p rfl
    simp [skookify_method_name, hp]

/-- C4 (refuted as stated): the result for `K2_GetActorLocation` with no return property
is `actor_location`, not `get_actor_location`. -/
theorem skookify_method_name_K2_GetActorLocation_ne :
    skookify_method_name (TEXT "K2_GetActorLocation") none ≠ TEXT "get_actor_location" := by
  decide

/-- C4 (as the code has it): for `K2_GetActorLocation` and a return property that is
absent or not boolean the result is `actor_location`: the `k2_` prefix is removed, the
`get_` prefix is removed as well, and no question mark is appended. -/
theorem skookify_method_name_K2_GetActorLocation (return_property_p : Option UProperty)
    (h : ∀ p, return_property_p = some p → p.IsA_UBoolProperty = false) :
    skookify_var_name (TEXT "K2_GetActorLocation") false false = TEXT "k2_get_actor_location"
    ∧ skookify_method_name (TEXT "K2_GetActorLocation") return_property_p
        = TEXT "actor_location" := by
  rw [skookify_method_name_not_boolean _ _ h]
  decide

/-- C4, an instance: a float return property is not boolean, the result is `actor_location`. -/
theorem skookify_method_name_K2_GetActorLocation_witness :
    skookify_method_name (TEXT "K2_GetActorLocation") (some (.plain false .FloatProperty))
      = TEXT "actor_location" :=
  (skookify_method_name_K2_GetActorLocation (some (.plain false .FloatProperty))
    (by intro p hp; cases hp; rfl)).2

/-! ## Checksums and keywords -/

/-- C5 (the code at the name of the claim): the scanning loop puts an underscore before
each digit that follows a letter, so the checksum test fails and nothing is chopped; the
same checksum in upper case is chopped. -/
theorem skookify_var_name_lower_case_md5_kept :
    skookify_var_name (TEXT "Foo_d41d8cd98f00b204e9800998ecf8427e") false false
        = TEXT "foo_d_41d_8cd_98f_00b_204e_9800998ecf_8427e"
    ∧ skookify_var_name (TEXT "Foo_d41d8cd98f00b204e9800998ecf8427e") false false ≠ TEXT "foo"
    ∧ skookify_var_name (TEXT "Foo_D41D8CD98F00B204E9800998ECF8427E") false false = TEXT "foo" := by
  decide

/-- C10: each of the 27 reserved keywords gets a trailing underscore as a variable name
and only the `@` in front as a member name. -/
theorem skookify_var_name_reserved_keywords :
    ms_reserved_keywords.length = 27
    ∧ ∀ k ∈ ms_reserved_keywords,
        skookify_var_name k false false = k ++ TEXT "_"
        ∧ skookify_var_name k false true = TEXT "@" ++ k := by
  decide

/-- C10, an instance: the keyword `if` gives `if_` as a variable and `@if` as a member. -/
theorem skookify_var_name_reserved_keywords_witness :
    skookify_var_name (TEXT "if") false false = TEXT "if_"
    ∧ skookify_var_name (TEXT "if") false true = TEXT "@if" :=
  skookify_var_name_reserved_keywords.2 (TEXT "if") (by decide)

/-! ## Type mapping -/

theorem get_skookum_property_type_array_eq (f : Bool) (e : UProperty) :
    get_skookum_property_type (.ArrayProperty f e)
      = if is_property_type_supported e = true ∧ get_skookum_property_type e ≠ SkTypeID_List
        then SkTypeID_List else SkTypeID_None := by
  rw [get_skookum_property_type]
  simp only [UProperty.IsA_UNumericProperty, UProperty.IsA_UFloatProperty,
    UProperty.IsA_UStrProperty, UProperty.IsA_UNameProperty, UProperty.IsA_UBoolProperty,
    UProperty.as_UStructProperty, UProperty.IsA_UClassProperty, UProperty.as_UObjectPropertyBase,
    get_enum, is_property_type_supported]
  by_cases h1 : is_excluded_property e = true <;>
    by_cases h2 : get_skookum_property_type e = SkTypeID_None <;>
    by_cases h3 : get_skookum_property_type e = SkTypeID_List <;>
    simp [h1, h2, h3]

/-- C6: an array property is classified `SkTypeID_List` exactly when its element property
is supported and is not itself classified `SkTypeID_List`, and `SkTypeID_None` otherwise;
an array whose element is an array is always `SkTypeID_None`. -/
theorem get_skookum_property_type_array (f : Bool) (e : UProperty) :
    (get_skookum_property_type (.ArrayProperty f e) = SkTypeID_List
        ↔ (is_property_type_supported e = true ∧ get_skookum_property_type e ≠ SkTypeID_List))
    ∧ (¬ (is_property_type_supported e = true ∧ get_skookum_property_type e ≠ SkTypeID_List)
        → get_skookum_property_type (.ArrayProperty f e) = SkTypeID_None)
    ∧ (∀ g inner, e = .ArrayProperty g inner →
        get_skookum_property_type (.ArrayProperty f e) = SkTypeID_None) := by
  have heq := get_skookum_property_type_array_eq f e
  refine ⟨?_, ?_, ?_⟩
  · rw [heq]
    by_cases h : is_property_type_supported e = true ∧ get_skookum_property_type e ≠ SkTypeID_List
    · simp [h]
    · simp only [h, if_false, iff_false]
      decide
  · intro h
    rw [heq, if_neg h]
  · intro g inner he
    subst he
    rw [heq]
    have hin := get_skookum_property_type_array_eq g inner
    by_cases h : is_property_type_supported inner = true
        ∧ get_skookum_property_type inner ≠ SkTypeID_List
    · rw [if_pos h] at hin
      simp [hin]
    · rw [if_neg h] at hin
      simp [is_property_type_supported, hin]

/-- C6, an instance: an array of arrays of integers is `SkTypeID_None`. -/
theorem get_skookum_property_type_array_witness :
    get_skookum_property_type
        (.ArrayProperty false (.ArrayProperty false (.plain false .IntProperty)))
      = SkTypeID_None :=
  (get_skookum_property_type_array false (.ArrayProperty false (.plain false .IntProperty))).2.2
    false (.plain false .IntProperty) rfl

/-! ## Class paths -/

theorem collect_super_classes_fst (s : UStruct) (acc : List FString × List UStruct) :
    (collect_super_classes s acc).1 = acc.1 ++ (super_chain s).map UStruct.obj_name := by
  induction s generalizing acc with
  | root d => simp [collect_super_classes, super_chain]
  | derived d p ih =>
    obtain ⟨stack, used⟩ := acc
    rw [collect_super_classes, ih]
    simp [super_chain]

theorem nesting_loop_reverse (n : Nat) (class_path : FString) (rs : List FString) :
    nesting_loop n (class_path, rs.reverse)
      = (((rs.take n).map skookify_class_name).foldl path_join class_path,
         (rs.drop n).reverse) := by
  induction n generalizing class_path rs with
  | zero => simp [nesting_loop]
  | succ n ih =>
    cases rs with
    | nil => simp [nesting_loop]
    | cons r rs =>
      rw [nesting_loop]
      have h1 : (rs.reverse ++ [r]).getLast? = some r := by simp
      have h2 : (rs.reverse ++ [r]).dropLast = rs.reverse := by simp
      simp only [List.reverse_cons, h1, h2]
      rw [ih]
      simp

theorem super_chain_of_super (s parent : UStruct) (h : s.GetSuperStruct = some parent) :
    super_chain s = parent :: super_chain parent := by
  cases s with
  | root d => simp [UStruct.GetSuperStruct] at h
  | derived d p =>
    simp only [UStruct.GetSuperStruct, Option.some.injEq] at h
    subst h
    rfl

theorem int32_of_range (x : Int) (hlo : -2 ^ 31 ≤ x) (hhi : x < 2 ^ 31) : int32 x = x := by
  unfold int32
  omega

theorem max_super_class_nesting_toNat (self : Data) (s : UStruct)
    (hlo : -2 ^ 31 + (if s.is_class then 1 else 2) ≤ self.m_scripts_path_depth)
    (hhi : self.m_scripts_path_depth < 2 ^ 31) :
    (max_super_class_nesting self s).toNat
      = nesting_budget self.m_scripts_path_depth s.is_class := by
  unfold max_super_class_nesting nesting_budget
  cases hc : s.is_class
  · rw [hc] at hlo
    simp only [Bool.false_eq_true, if_false] at hlo ⊢
    rw [int32_of_range _ (by omega) (by omega)]
    omega
  · rw [hc] at hlo
    simp only [if_true] at hlo ⊢
    rw [int32_of_range _ (by omega) (by omega)]
    omega

theorem locals_class_path (self : Data) (s : UStruct) :
    (get_skookum_class_path_locals self s).class_path
      = ((((super_chain s).reverse).take (max_super_class_nesting self s).toNat).map
          (fun a => skookify_class_name a.obj_name)).foldl path_join (base_directory self s) := by
  have hstack : (collect_super_classes s ([], self.m_used_classes)).1
      = (((super_chain s).map UStruct.obj_name).reverse).reverse := by
    rw [collect_super_classes_fst]; simp
  simp only [get_skookum_class_path_locals]
  rw [hstack, nesting_loop_reverse]
  simp only [base_directory, List.map_reverse, List.map_take, List.map_map,
    List.reverse_reverse]
  rfl

theorem locals_class_name (self : Data) (s : UStruct) :
    (get_skookum_class_path_locals self s).class_name
      = match (((super_chain s).map UStruct.obj_name).take
          ((super_chain s).length - (max_super_class_nesting self s).toNat)).head? with
        | some bottom => skookify_class_name bottom ++ TEXT "." ++ skookify_class_name s.obj_name
        | none => skookify_class_name s.obj_name := by
  have hstack : (collect_super_classes s ([], self.m_used_classes)).1
      = (((super_chain s).map UStruct.obj_name).reverse).reverse := by
    rw [collect_super_classes_fst]; simp
  simp only [get_skookum_class_path_locals]
  rw [hstack, nesting_loop_reverse]
  simp only [List.drop_reverse, List.reverse_reverse, List.length_map]

theorem locals_class_name_of_parent (self : Data) (s parent : UStruct)
    (hp : s.GetSuperStruct = some parent)
    (hlt : (max_super_class_nesting self s).toNat < (super_chain s).length) :
    (get_skookum_class_path_locals self s).class_name
      = skookify_class_name parent.obj_name ++ TEXT "." ++ skookify_class_name s.obj_name := by
  rw [locals_class_name, super_chain_of_super s parent hp]
  rw [super_chain_of_super s parent hp] at hlt
  simp only [List.length_cons] at hlt ⊢
  obtain ⟨m, hm⟩ := Nat.exists_eq_succ_of_ne_zero (Nat.sub_ne_zero_of_lt hlt)
  rw [hm]
  simp

theorem max_super_class_nesting_depth_one (self : Data) (s : UStruct)
    (hD : self.m_scripts_path_depth = 1) : (max_super_class_nesting self s).toNat = 0 := by
  rw [max_super_class_nesting_toNat self s (by rw [hD]; split <;> decide) (by rw [hD]; decide)]
  simp [nesting_budget, hD]


/-- C7: with `m_scripts_path_depth = 1` no ancestor directory is created: the directory
is `m_scripts_path / "Object"` for a class and `m_scripts_path / "Object/UStruct"` for a
plain struct, and the path is that directory joined with the final class name, which is
the class name, dotted with the name of the parent when there is one, whatever the length
of the ancestor chain. -/
theorem get_skookum_class_path_depth_one (self : Data) (s : UStruct)
    (hD : self.m_scripts_path_depth = 1) :
    (get_skookum_class_path_locals self s).class_path
        = path_join self.m_scripts_path
            (if s.is_class then TEXT "Object" else TEXT "Object/UStruct")
    ∧ get_skookum_class_path self s
        = path_join
            (path_join self.m_scripts_path
              (if s.is_class then TEXT "Object" else TEXT "Object/UStruct"))
            (match s.GetSuperStruct with
             | some parent =>
               skookify_class_name parent.obj_name ++ TEXT "." ++ skookify_class_name s.obj_name
             | none => skookify_class_name s.obj_name) := by
  have hb := max_super_class_nesting_depth_one self s hD
  have hpath := locals_class_path self s
  rw [hb] at hpath
  simp only [List.take_zero, List.map_nil, List.foldl_nil] at hpath
  have hname := locals_class_name self s
  rw [hb] at hname
  simp only [Nat.sub_zero, ← List.length_map (super_chain s) UStruct.obj_name, List.take_length]
    at hname
  refine ⟨by simpa [base_directory] using hpath, ?_⟩
  unfold get_skookum_class_path
  simp only
  rw [hpath, hname]
  cases s with
  | root d => simp [super_chain, UStruct.GetSuperStruct, base_directory]
  | derived d p => simp [super_chain, UStruct.GetSuperStruct, base_directory]

/-- C7, an instance: with depth 1 the class `Character`, three ancestors deep, is filed directly under `Object`, under the dotted name `Pawn.Character`. -/
theorem get_skookum_class_path_depth_one_witness :
    get_skookum_class_path (example_generator 1) example_character
      = TEXT "Scripts/Object/Pawn.Character" := by
  have h := (get_skookum_class_path_depth_one (example_generator 1) example_character rfl).2
  rw [h]
  decide

/-- C9: with `B` the number of ancestor levels the nesting loop may consume (the value of
`max_super_class_nesting`), when the ancestor chain is longer than `B` the final path
component is the class name of the immediate parent, a dot, and the class name;
otherwise it is the class name alone.  When the chain is longer by exactly one, every
ancestor is in the path: all but the parent as directories, oldest first, and the parent
in the final component.  `B` is `max (D - 1) 0` for a class and `max (D - 2) 0` for a
plain struct whenever the subtraction does not overflow. -/
theorem get_skookum_class_path_final_component (self : Data) (s : UStruct) :
    (∀ parent, s.GetSuperStruct = some parent →
        (max_super_class_nesting self s).toNat < (super_chain s).length →
        (get_skookum_class_path_locals self s).class_name
          = skookify_class_name parent.obj_name ++ TEXT "." ++ skookify_class_name s.obj_name)
    ∧ ((super_chain s).length ≤ (max_super_class_nesting self s).toNat →
        (get_skookum_class_path_locals self s).class_name = skookify_class_name s.obj_name)
    ∧ (∀ parent, s.GetSuperStruct = some parent →
        (super_chain s).length = (max_super_class_nesting self s).toNat + 1 →
        get_skookum_class_path self s
          = path_join
              ((((super_chain parent).reverse).map
                  (fun a => skookify_class_name a.obj_name)).foldl path_join
                (path_join self.m_scripts_path
                  (if s.is_class then TEXT "Object" else TEXT "Object/UStruct")))
              (skookify_class_name parent.obj_name ++ TEXT "."
                ++ skookify_class_name s.obj_name))
    ∧ (-2 ^ 31 + (if s.is_class then 1 else 2) ≤ self.m_scripts_path_depth →
        self.m_scripts_path_depth < 2 ^ 31 →
        (max_super_class_nesting self s).toNat
          = if s.is_class then (max (self.m_scripts_path_depth - 1) 0).toNat
            else (max (self.m_scripts_path_depth - 2) 0).toNat) := by
  refine ⟨locals_class_name_of_parent self s, ?_, ?_, ?_⟩
  · intro hle
    rw [locals_class_name, Nat.sub_eq_zero_of_le hle]
    simp
  · intro parent hp hn
    unfold get_skookum_class_path
    simp only
    rw [locals_class_name_of_parent self s parent hp (by omega), locals_class_path]
    have hseg : (((super_chain s).reverse).take (max_super_class_nesting self s).toNat).map
          (fun a => skookify_class_name a.obj_name)
        = ((super_chain parent).reverse).map (fun a => skookify_class_name a.obj_name) := by
      rw [super_chain_of_super s parent hp] at hn ⊢
      simp only [List.length_cons, Nat.add_right_cancel_iff] at hn
      rw [List.reverse_cons, ← hn, ← List.length_reverse (super_chain parent),
        List.take_left]
    rw [hseg]
    rfl
  · intro hlo hhi
    rw [max_super_class_nesting_toNat self s hlo hhi]
    unfold nesting_budget
    cases s.is_class <;> simp <;> omega

/-- C9, instances on the chain of `Character`: with depth 3 the budget is 2, one ancestor
remains and the final component is `Pawn.Character`, every ancestor being in the path;
with depth 4 none remains and the final component is `Character`. -/
theorem get_skookum_class_path_final_component_witness :
    (get_skookum_class_path_locals (example_generator 3) example_character).class_name
        = TEXT "Pawn.Character"
    ∧ (get_skookum_class_path_locals (example_generator 4) example_character).class_name
        = TEXT "Character"
    ∧ get_skookum_class_path (example_generator 3) example_character
        = TEXT "Scripts/Object/Entity/Actor/Pawn.Character"
    ∧ (max_super_class_nesting (example_generator 3) example_character).toNat = 2 := by
  refine ⟨?_, ?_, ?_, ?_⟩
  · rw [(get_skookum_class_path_final_component (example_generator 3) example_character).1
      example_pawn rfl (by decide)]
    decide
  · rw [(get_skookum_class_path_final_component (example_generator 4) example_character).2.1
      (by decide)]
    decide
  · rw [(get_skookum_class_path_final_component (example_generator 3) example_character).2.2.1
      example_pawn rfl (by decide)]
    decide
  · rw [(get_skookum_class_path_final_component (example_generator 3) example_character).2.2.2
      (by decide) (by decide)]
    decide

/-! ## File writer -/

theorem ieq_self (a : FString) : ieq a a = true := by
  simp [ieq]

theorem path_ne_temp_path (p : FString) : p ≠ p ++ TEXT ".tmp" := by
  intro h
  have := congrArg List.length h
  simp [TEXT] at this

theorem AddUnique_FString_has (l : List FString) (t : FString) :
    (AddUnique_FString l t).any (fun element => ieq element t) = true := by
  unfold AddUnique_FString
  split_ifs with h
  · exact h
  · simp [ieq_self]

theorem AddUnique_FString_idem (l : List FString) (t : FString) :
    AddUnique_FString (AddUnique_FString l t) t = AddUnique_FString l t := by
  have h := AddUnique_FString_has l t
  generalize AddUnique_FString l t = l1 at h ⊢
  simp only [AddUnique_FString, h, if_true]

theorem has_changed_iff (disk : FileSystem) (p c : FString) :
    (decide ((LoadFileToString disk p).length = 0) || decide (LoadFileToString disk p ≠ c)) = true
      ↔ (disk p = none ∨ disk p = some [] ∨ disk p ≠ some c) := by
  unfold LoadFileToString
  cases hd : disk p with
  | none => simp
  | some d =>
    cases d with
    | nil => simp
    | cons a d => simp

theorem save_text_file_if_changed_unchanged (os : Platform) (self : Data) (disk : FileSystem)
    (p c : FString) (h : ¬ (disk p = none ∨ disk p = some [] ∨ disk p ≠ some c)) :
    save_text_file_if_changed os self disk p c = .ok (false, self, disk) := by
  have hchanged := (has_changed_iff disk p c).not.mpr h
  simp only [Bool.not_eq_true] at hchanged
  simp only [save_text_file_if_changed, hchanged, Bool.false_eq_true, if_false]

theorem save_text_file_if_changed_staged (os : Platform) (self : Data) (disk : FileSystem)
    (p c : FString) (h : disk p = none ∨ disk p = some [] ∨ disk p ≠ some c)
    (hs : os.can_save (p ++ TEXT ".tmp") = true) :
    save_text_file_if_changed os self disk p c
      = .ok (true,
          { self with
            m_temp_file_paths := AddUnique_FString self.m_temp_file_paths (p ++ TEXT ".tmp") },
          fun q => if q = p ++ TEXT ".tmp" then some (os.ansi c)
            else Delete disk (p ++ TEXT ".tmp") q) := by
  have hchanged := (has_changed_iff disk p c).mpr h
  simp only [save_text_file_if_changed, hchanged, if_true, SaveStringToFile, hs]

theorem save_text_file_if_changed_failed (os : Platform) (self : Data) (disk : FileSystem)
    (p c : FString) (h : disk p = none ∨ disk p = some [] ∨ disk p ≠ some c)
    (hs : os.can_save (p ++ TEXT ".tmp") = false) :
    save_text_file_if_changed os self disk p c
      = .error (FError.failed_to_save_file (p ++ TEXT ".tmp")) := by
  have hchanged := (has_changed_iff disk p c).mpr h
  simp only [save_text_file_if_changed, hchanged, if_true, SaveStringToFile, hs,
    Bool.false_eq_true, if_false]

theorem save_text_file_if_changed_twice_eq (os1 os2 : Platform) (self : Data)
    (disk : FileSystem) (p c : FString) (r : Bool × Data × FileSystem)
    (hr : save_text_file_if_changed os1 self disk p c = .ok r) :
    save_text_file_if_changed_twice os1 os2 self disk p c
      = save_text_file_if_changed os2 self disk p c := by
  unfold save_text_file_if_changed_twice
  by_cases h : disk p = none ∨ disk p = some [] ∨ disk p ≠ some c
  · cases hs : os1.can_save (p ++ TEXT ".tmp")
    · rw [save_text_file_if_changed_failed os1 self disk p c h hs] at hr
      exact absurd hr (by simp)
    · rw [save_text_file_if_changed_staged os1 self disk p c h hs]
      simp only
      have hp : (fun q => if q = p ++ TEXT ".tmp" then some (os1.ansi c)
          else Delete disk (p ++ TEXT ".tmp") q) p = disk p := by
        simp [path_ne_temp_path p, Delete]
      simp only [] at hp
      cases hs2 : os2.can_save (p ++ TEXT ".tmp")
      · rw [save_text_file_if_changed_failed os2 _ _ p c (by rw [hp]; exact h) hs2,
          save_text_file_if_changed_failed os2 self disk p c h hs2]
      · rw [save_text_file_if_changed_staged os2 _ _ p c (by rw [hp]; exact h) hs2,
          save_text_file_if_changed_staged os2 self disk p c h hs2]
        simp only [AddUnique_FString_idem]
        congr 3
        funext q
        by_cases hq : q = p ++ TEXT ".tmp"
        · simp [hq]
        · simp [hq, Delete]
  · rw [save_text_file_if_changed_unchanged os1 self disk p c h]

theorem save_text_file_if_changed_twice_error (os1 os2 : Platform) (self : Data)
    (disk : FileSystem) (p c : FString) (e : FError)
    (he : save_text_file_if_changed os1 self disk p c = .error e) :
    save_text_file_if_changed_twice os1 os2 self disk p c = .error e := by
  unfold save_text_file_if_changed_twice
  rw [he]

theorem flush_loop_frame (os : Platform) (p : FString) (l : List FString) (disk : FileSystem)
    (hex : ∀ t ∈ l, disk t ≠ none) (hnd : l.Nodup)
    (hmv : ∀ t ∈ l, os.can_move (Replace t (TEXT ".tmp") (TEXT "")) t = true)
    (hfr : ∀ t ∈ l, t ≠ p ∧ Replace t (TEXT ".tmp") (TEXT "") ≠ p) :
    ∃ disk2, flush_loop os l disk = .ok disk2 ∧ disk2 p = disk p := by
  induction l generalizing disk with
  | nil => exact ⟨disk, rfl, rfl⟩
  | cons t rest ih =>
    have ht := hex t (List.mem_cons_self _ _)
    obtain ⟨content, hcontent⟩ := Option.ne_none_iff_exists'.mp ht
    obtain ⟨hnt, hnd'⟩ := List.nodup_cons.mp hnd
    obtain ⟨hp1, hp2⟩ := hfr t (List.mem_cons_self _ _)
    have hm := hmv t (List.mem_cons_self _ _)
    have hex' : ∀ t' ∈ rest,
        (fun q => if q = Replace t (TEXT ".tmp") (TEXT "") then some content
          else if q = t then none else disk q) t' ≠ none := by
      intro t' ht'
      have hne : t' ≠ t := fun e => hnt (e ▸ ht')
      by_cases hd : t' = Replace t (TEXT ".tmp") (TEXT "")
      · simp [hd]
      · simpa [hd, hne] using hex t' (List.mem_cons_of_mem _ ht')
    obtain ⟨disk2, h1, h2⟩ := ih _ hex' hnd'
      (fun t' ht' => hmv t' (List.mem_cons_of_mem _ ht'))
      (fun t' ht' => hfr t' (List.mem_cons_of_mem _ ht'))
    refine ⟨disk2, ?_, ?_⟩
    · simp only [flush_loop, Move, hcontent, hm, if_true]
      exact h1
    · rw [h2]
      simp [Ne.symm hp2, Ne.symm hp1]

/-- C2 (the code at a path that contains `.tmp`): from an empty file system with nothing
staged, on a platform where every write and move succeeds,
`save_text_file_if_changed("Gen.tmp/A.sk", "x")` stages a write to `Gen.tmp/A.sk.tmp`;
`flush_saved_text_files` removes every `.tmp` of that path and moves the temp file to
`Gen/A.sk`, so no file is at `Gen.tmp/A.sk` afterwards. -/
theorem save_then_flush_misplaces_file :
    ∃ self1 disk1 self2 disk2,
      save_text_file_if_changed reliable_platform (example_generator 4) empty_disk
          (TEXT "Gen.tmp/A.sk") (TEXT "x")
        = .ok (true, self1, disk1)
      ∧ self1.m_temp_file_paths = [TEXT "Gen.tmp/A.sk.tmp"]
      ∧ disk1 (TEXT "Gen.tmp/A.sk.tmp") = some (TEXT "x")
      ∧ flush_saved_text_files reliable_platform self1 disk1 = .ok (self2, disk2)
      ∧ disk2 (TEXT "Gen.tmp/A.sk") = none
      ∧ disk2 (TEXT "Gen/A.sk") = some (TEXT "x") :=
  ⟨_, _, _, _, rfl, by decide, by decide, rfl, by decide, by decide⟩

/-- C3 (refuted as stated): with `A.sk` holding `old`, two calls in a row with the content
`new` both report a change; the second call returns true with the temp file staged, and
the flush replaces the original content. -/
theorem save_twice_stages_again :
    ∃ self1 disk1 self2 disk2,
      save_text_file_if_changed_twice reliable_platform reliable_platform
          (example_generator 4) disk_with_old_file (TEXT "A.sk") (TEXT "new")
        = .ok (true, self1, disk1)
      ∧ self1.m_temp_file_paths = [TEXT "A.sk.tmp"]
      ∧ disk1 (TEXT "A.sk.tmp") = some (TEXT "new")
      ∧ flush_saved_text_files reliable_platform self1 disk1 = .ok (self2, disk2)
      ∧ disk_with_old_file (TEXT "A.sk") = some (TEXT "old")
      ∧ disk2 (TEXT "A.sk") = some (TEXT "new") :=
  ⟨_, _, _, _, rfl, by decide, by decide, rfl, by decide, by decide⟩

/-- C3 (as the code has it), with `os1`, `os2` and `os3` the platform during the first
call, the second call and the flush: when the first of two calls of
`save_text_file_if_changed(p, c)` in a row returns, the second has the outcome it would
have had as the first call: the same returned flag with the same files and the same
`m_temp_file_paths`, or the same error; when the first call throws there is no second.
So when the file at `p` is absent, empty or different from `c` and the temp file can be
written both times, the second call returns true like the first, with the ANSI form of
`c` staged in `p + ".tmp"`.  When the file at `p` holds the non-empty content `c`, the
call, made once or twice, returns false and changes neither the file system nor
`m_temp_file_paths`; if moreover every staged temp file exists and can be moved, none is
staged twice, and none is `p` or is moved onto `p`, a following `flush_saved_text_files`
succeeds, leaves the content of `p` as it was and empties `m_temp_file_paths`. -/
theorem save_unchanged_content_twice (os1 os2 os3 : Platform) (self : Data)
    (disk : FileSystem) (p c : FString) :
    (∀ r, save_text_file_if_changed os1 self disk p c = .ok r →
        save_text_file_if_changed_twice os1 os2 self disk p c
          = save_text_file_if_changed os2 self disk p c)
    ∧ (∀ e, save_text_file_if_changed os1 self disk p c = .error e →
        save_text_file_if_changed_twice os1 os2 self disk p c = .error e)
    ∧ ((disk p = none ∨ disk p = some [] ∨ disk p ≠ some c) →
        os1.can_save (p ++ TEXT ".tmp") = true →
        os2.can_save (p ++ TEXT ".tmp") = true →
        ∃ self1 disk1,
          save_text_file_if_changed_twice os1 os2 self disk p c = .ok (true, self1, disk1)
          ∧ disk1 (p ++ TEXT ".tmp") = some (os2.ansi c)
          ∧ disk1 p = disk p)
    ∧ (c ≠ [] → disk p = some c →
        save_text_file_if_changed os1 self disk p c = .ok (false, self, disk)
        ∧ save_text_file_if_changed_twice os1 os2 self disk p c = .ok (false, self, disk)
        ∧ ((∀ t ∈ self.m_temp_file_paths, disk t ≠ none) →
            self.m_temp_file_paths.Nodup →
            (∀ t ∈ self.m_temp_file_paths,
              os3.can_move (Replace t (TEXT ".tmp") (TEXT "")) t = true) →
            (∀ t ∈ self.m_temp_file_paths,
              t ≠ p ∧ Replace t (TEXT ".tmp") (TEXT "") ≠ p) →
            ∃ self2 disk2, flush_saved_text_files os3 self disk = .ok (self2, disk2)
              ∧ disk2 p = some c ∧ self2.m_temp_file_paths = [])) := by
  refine ⟨save_text_file_if_changed_twice_eq os1 os2 self disk p c,
    save_text_file_if_changed_twice_error os1 os2 self disk p c, ?_, ?_⟩
  · intro h hs1 hs2
    rw [save_text_file_if_changed_twice_eq os1 os2 self disk p c _
      (save_text_file_if_changed_staged os1 self disk p c h hs1),
      save_text_file_if_changed_staged os2 self disk p c h hs2]
    refine ⟨_, _, rfl, ?_, ?_⟩
    · simp
    · simp [path_ne_temp_path p, Delete]
  · intro hc hp
    have hsame : ¬ (disk p = none ∨ disk p = some [] ∨ disk p ≠ some c) := by
      rw [hp]
      simp [hc]
    have h1 := save_text_file_if_changed_unchanged os1 self disk p c hsame
    have h2 := save_text_file_if_changed_unchanged os2 self disk p c hsame
    refine ⟨h1, by rw [save_text_file_if_changed_twice_eq os1 os2 self disk p c _ h1, h2], ?_⟩
    intro hex hnd hmv hfr
    obtain ⟨disk2, hd1, hd2⟩ := flush_loop_frame os3 p _ disk hex hnd hmv hfr
    refine ⟨{ self with m_temp_file_paths := [] }, disk2, ?_, by rw [hd2, hp], rfl⟩
    simp only [flush_saved_text_files, hd1]

/-- C3, instances: with `A.sk` holding `old`, the second call with `new` returns true and
has `new` staged; with `A.sk` holding `x` and a temp file for `B.sk` staged, saving `x`
to `A.sk` twice returns false and changes nothing, and the flush leaves `A.sk` as it
was. -/
theorem save_unchanged_content_twice_witness :
    (∃ self1 disk1,
        save_text_file_if_changed_twice reliable_platform reliable_platform
            (example_generator 4) disk_with_old_file (TEXT "A.sk") (TEXT "new")
          = .ok (true, self1, disk1)
        ∧ disk1 (TEXT "A.sk" ++ TEXT ".tmp") = some (reliable_platform.ansi (TEXT "new"))
        ∧ disk1 (TEXT "A.sk") = disk_with_old_file (TEXT "A.sk"))
    ∧ save_text_file_if_changed_twice reliable_platform reliable_platform
          generator_with_staged_file disk_with_staged_file (TEXT "A.sk") (TEXT "x")
        = .ok (false, generator_with_staged_file, disk_with_staged_file)
    ∧ ∃ self2 disk2,
        flush_saved_text_files reliable_platform generator_with_staged_file
            disk_with_staged_file
          = .ok (self2, disk2)
        ∧ disk2 (TEXT "A.sk") = some (TEXT "x") ∧ self2.m_temp_file_paths = [] :=
  ⟨(save_unchanged_content_twice reliable_platform reliable_platform reliable_platform
      (example_generator 4) disk_with_old_file (TEXT "A.sk") (TEXT "new")).2.2.1
      (by decide) (by decide) (by decide),
   ((save_unchanged_content_twice reliable_platform reliable_platform reliable_platform
      generator_with_staged_file disk_with_staged_file (TEXT "A.sk") (TEXT "x")).2.2.2
      (by decide) (by decide)).2.1,
   ((save_unchanged_content_twice reliable_platform reliable_platform reliable_platform
      generator_with_staged_file disk_with_staged_file (TEXT "A.sk") (TEXT "x")).2.2.2
      (by decide) (by decide)).2.2
      (by decide) (by decide) (by decide) (by decide)⟩

theorem save_then_flush_round_trip (os : Platform) (self : Data) (disk : FileSystem)
    (p c : FString)
    (hempty : self.m_temp_file_paths = [])
    (hstage : disk p = none ∨ disk p = some [] ∨ disk p ≠ some c)
    (hs : os.can_save (p ++ TEXT ".tmp") = true)
    (hm : os.can_move p (p ++ TEXT ".tmp") = true)
    (hrep : Replace (p ++ TEXT ".tmp") (TEXT ".tmp") (TEXT "") = p) :
    ∃ self1 disk1 self2 disk2,
      save_text_file_if_changed os self disk p c = .ok (true, self1, disk1)
      ∧ flush_saved_text_files os self1 disk1 = .ok (self2, disk2)
      ∧ disk2 p = some (os.ansi c) ∧ disk2 (p ++ TEXT ".tmp") = none
      ∧ self2.m_temp_file_paths = [] := by
  have hne : p ++ TEXT ".tmp" ≠ p := fun h => path_ne_temp_path p h.symm
  have hsave := save_text_file_if_changed_staged os self disk p c hstage hs
  refine ⟨_, _, { self with m_temp_file_paths := [] },
    (fun q => if q = p then some (os.ansi c) else if q = p ++ TEXT ".tmp" then none
      else (if q = p ++ TEXT ".tmp" then some (os.ansi c)
        else Delete disk (p ++ TEXT ".tmp") q)),
    hsave, ?_, ?_, ?_, ?_⟩
  · simp only [flush_saved_text_files, hempty, AddUnique_FString, List.any_nil,
      Bool.false_eq_true, if_false, List.nil_append, flush_loop, hrep, Move, if_true, hm]
  · simp
  · simp [hne]
  · rfl

/-! ## Shape of the results of `skookify_var_name` -/

theorem tidy_head (s : FString) (h : tidy true s = true) : s.head? ≠ some '_' := by
  cases s with
  | nil => simp
  | cons a s =>
    rw [tidy] at h
    by_cases ha : a = '_'
    · simp [ha] at h
    · simpa using ha

theorem tidy_no_double_underscore (s : FString) (b : Bool) (h : tidy b s = true) :
    ∀ i : Nat, s[i]? = some '_' → s[i + 1]? ≠ some '_' := by
  induction s generalizing b with
  | nil => intro i hi; simp at hi
  | cons a s ih =>
    intro i hi
    rw [tidy] at h
    cases i with
    | zero =>
      have ha : a = '_' := by simpa using hi
      simp only [ha, if_true, Bool.and_eq_true] at h
      have := tidy_head s h.2
      cases s with
      | nil => simp
      | cons a2 s2 => simpa using this
    | succ j =>
      have hj : s[j]? = some '_' := by simpa using hi
      have hs : ∃ b2, tidy b2 s = true := by
        by_cases ha : a = '_'
        · simp only [ha, if_true, Bool.and_eq_true] at h; exact ⟨_, h.2⟩
        · simp only [ha, if_false, Bool.and_eq_true] at h; exact ⟨_, h.2⟩
      obtain ⟨b2, hb2⟩ := hs
      have := ih b2 hb2 j hj
      simpa using this

theorem no_double_underscore_cons (a : Char) (s : FString) (ha : a ≠ '_')
    (h : ∀ i : Nat, s[i]? = some '_' → s[i + 1]? ≠ some '_') :
    ∀ i : Nat, (a :: s)[i]? = some '_' → (a :: s)[i + 1]? ≠ some '_' := by
  intro i hi
  cases i with
  | zero => exact absurd (by simpa using hi) ha
  | succ j => simpa using h j (by simpa using hi)

theorem no_double_underscore_concat (a : Char) (s : FString) (ha : a ≠ '_')
    (h : ∀ i : Nat, s[i]? = some '_' → s[i + 1]? ≠ some '_') :
    ∀ i : Nat, (s ++ [a])[i]? = some '_' → (s ++ [a])[i + 1]? ≠ some '_' := by
  intro i hi
  rcases Nat.lt_trichotomy (i + 1) s.length with hlt | heq | hgt
  · rw [List.getElem?_append_left hlt]
    rw [List.getElem?_append_left (by omega)] at hi
    exact h i hi
  · rw [List.getElem?_append_right (by omega)]
    simp [heq, ha]
  · rw [List.getElem?_eq_none (by simp; omega)]
    simp

theorem chop_md5_cases_long (s : FString) :
    chop_md5 s = s ∨ (33 < s.length ∧ chop_md5 s = s.take (s.length - 33)) := by
  unfold chop_md5
  simp only
  split_ifs with h1 h2 h3 <;> simp
  exact Or.inr h1

theorem tidy_chop_md5_member (s : FString) (h : tidy true s = true) :
    ∃ body, tidy true body = true ∧ chop_md5 ('@' :: s) = '@' :: body := by
  rcases chop_md5_cases_long ('@' :: s) with e | ⟨hlen, e⟩
  · exact ⟨s, h, e⟩
  · refine ⟨s.take (s.length - 33), tidy_take s true _ h, ?_⟩
    rw [e]
    simp only [List.length_cons] at hlen ⊢
    obtain ⟨k, hk⟩ : ∃ k, s.length + 1 - 33 = k + 1 := ⟨s.length - 33, by omega⟩
    rw [hk, List.take_succ_cons]
    congr 2
    omega

theorem skookify_var_name_shape (name : FString) (q m : Bool) (h : name ≠ []) :
    ∃ body, tidy true body = true
      ∧ skookify_var_name name q m
          = (if m then ['@'] else []) ++ body ++ (if q then ['?'] else []) := by
  have hne : name.isEmpty = false := by
    cases name with
    | nil => exact absurd rfl h
    | cons c cs => rfl
  cases m with
  | false =>
    refine ⟨chop_md5 (escape_keyword (scan_name name false)), ?_, ?_⟩
    · rw [scan_name_eq]
      exact tidy_chop_md5 _ (tidy_escape_keyword _ (tidy_scan_emit _ _ _))
    · cases q <;> simp [skookify_var_name, hne]
  | true =>
    obtain ⟨body, hb, he⟩ := tidy_chop_md5_member
      (scan_emit true true (name.drop (if is_b_boolean name then 1 else 0)))
      (tidy_scan_emit _ _ _)
    refine ⟨body, hb, ?_⟩
    cases q <;> simp [skookify_var_name, hne, scan_name_member_eq, he]

/-- C11: a `b` in front of a name of at least two characters that begins with an upper
case letter is skipped and changes nothing else: the result is that of the name without
it, for both flags. -/
theorem skookify_var_name_boolean_b (r : FString) (q m : Bool) (hlen : 2 ≤ r.length)
    (hup : ∃ c rest, r = c :: rest ∧ isupper c = true) :
    skookify_var_name ('b' :: r) q m = skookify_var_name r q m := by
  obtain ⟨c, rest, hr, hc⟩ := hup
  subst hr
  cases rest with
  | nil => simp at hlen
  | cons c2 rest =>
    have hcb : (c == 'b') = false := by
      apply beq_eq_false_iff_ne.mpr
      intro e; subst e; exact absurd hc (by decide)
    have h1 : is_b_boolean ('b' :: c :: c2 :: rest) = true := by
      simp [is_b_boolean, hc]
    have h2 : is_b_boolean (c :: c2 :: rest) = false := by
      cases rest <;> simp [is_b_boolean, hcb]
    simp [skookify_var_name, scan_name, h1, h2]

/-- C11, the instances of the claim: `bIsDead` gives `is_dead`, with the question mark
`is_dead?`, like `IsDead`; `MaxHealth` gives `max_health`. -/
theorem skookify_var_name_boolean_b_witness :
    skookify_var_name (TEXT "bIsDead") false false = skookify_var_name (TEXT "IsDead") false false
    ∧ skookify_var_name (TEXT "bIsDead") false false = TEXT "is_dead"
    ∧ skookify_var_name (TEXT "bIsDead") true false = TEXT "is_dead?"
    ∧ skookify_var_name (TEXT "MaxHealth") false false = TEXT "max_health" :=
  ⟨skookify_var_name_boolean_b (TEXT "IsDead") false false (by decide)
      ⟨'I', TEXT "sDead", by decide, by decide⟩,
   by decide, by decide, by decide⟩

theorem tidy_body_facts (s : FString) (h : tidy true s = true) (q : Bool) :
    (∀ i : Nat, (s ++ (if q then ['?'] else []))[i]? = some '_'
        → (s ++ (if q then ['?'] else []))[i + 1]? ≠ some '_')
    ∧ ' ' ∉ s ++ (if q then ['?'] else [])
    ∧ ':' ∉ s ++ (if q then ['?'] else [])
    ∧ (∀ c ∈ s ++ (if q then ['?'] else []), isupper c = false)
    ∧ (s ++ (if q then ['?'] else [])).head? ≠ some '_' := by
  have hc := tidy_chars s true h
  have hd := tidy_no_double_underscore s true h
  have hh := tidy_head s h
  cases q with
  | false =>
    simp only [Bool.false_eq_true, if_false, List.append_nil]
    exact ⟨hd, fun hm => (hc _ hm).2.1 rfl, fun hm => (hc _ hm).2.2.1 rfl,
      fun c hm => (hc c hm).2.2.2, hh⟩
  | true =>
    simp only [if_true]
    refine ⟨no_double_underscore_concat '?' s (by decide) hd, ?_, ?_, ?_, ?_⟩
    · intro hm
      rcases List.mem_append.mp hm with e | e
      · exact (hc _ e).2.1 rfl
      · simp at e
    · intro hm
      rcases List.mem_append.mp hm with e | e
      · exact (hc _ e).2.2.1 rfl
      · simp at e
    · intro c hm
      rcases List.mem_append.mp hm with e | e
      · exact (hc c e).2.2.2
      · have : c = '?' := List.mem_singleton.mp e
        subst this; decide
    · cases s with
      | nil => simp
      | cons a s => simpa using hh

/-- C13: an empty name gives an empty result, also when the question mark is asked for;
for a name that is not empty the question mark is appended to the result without it, and
that result has no question mark.  So a question mark can only be the last character of
a result. -/
theorem skookify_var_name_question_mark (n : FString) (m : Bool) :
    (∀ q, skookify_var_name [] q m = [])
    ∧ (n ≠ [] → skookify_var_name n true m = skookify_var_name n false m ++ TEXT "?")
    ∧ '?' ∉ skookify_var_name n false m
    ∧ (∀ q, '?' ∉ (skookify_var_name n q m).dropLast) := by
  have hnoq : '?' ∉ skookify_var_name n false m := by
    by_cases h : n = []
    · subst h; simp [skookify_var_name]
    · obtain ⟨body, hb, he⟩ := skookify_var_name_shape n false m h
      rw [he]
      have hc := tidy_chars body true hb
      intro hm
      simp only [Bool.false_eq_true, if_false, List.append_nil] at hm
      rcases List.mem_append.mp hm with e | e
      · cases m
        · simp at e
        · simp at e
      · exact (hc _ e).1 rfl
  have hq : n ≠ [] → skookify_var_name n true m = skookify_var_name n false m ++ TEXT "?" := by
    intro h
    cases n with
    | nil => exact absurd rfl h
    | cons c cs => simp [skookify_var_name, TEXT]
  refine ⟨fun q => by simp [skookify_var_name], hq, hnoq, ?_⟩
  intro q
  cases q with
  | false => exact fun hm => hnoq (List.mem_of_mem_dropLast hm)
  | true =>
    by_cases h : n = []
    · subst h; simp [skookify_var_name]
    · rw [hq h]
      simpa [TEXT] using hnoq

/-- C13, instances: the member `bIsDead` with and without the question mark, and a name
that has question marks of its own. -/
theorem skookify_var_name_question_mark_witness :
    skookify_var_name (TEXT "bIsDead") true true
        = skookify_var_name (TEXT "bIsDead") false true ++ TEXT "?"
    ∧ skookify_var_name (TEXT "bIsDead") true true = TEXT "@is_dead?"
    ∧ skookify_var_name (TEXT "Is?Dead?") false false = TEXT "is_dead"
    ∧ skookify_var_name (TEXT "") true true = TEXT "" :=
  ⟨(skookify_var_name_question_mark (TEXT "bIsDead") true).2.1 (by decide),
   by decide, by decide, by decide⟩

/-- C14: for every name and both flags the result has no two underscores in a row, no
space, no colon and no upper case ASCII letter; the result without the `@` that
`is_member` puts in front does not begin with an underscore, and a member result of a
name that is not empty begins with that `@`. -/
theorem skookify_var_name_clean (n : FString) (q m : Bool) :
    (∀ i : Nat, (skookify_var_name n q m)[i]? = some '_'
        → (skookify_var_name n q m)[i + 1]? ≠ some '_')
    ∧ ' ' ∉ skookify_var_name n q m
    ∧ ':' ∉ skookify_var_name n q m
    ∧ (∀ c ∈ skookify_var_name n q m, isupper c = false)
    ∧ ((skookify_var_name n q m).drop (if m then 1 else 0)).head? ≠ some '_'
    ∧ (m = true → n ≠ [] → (skookify_var_name n q m).head? = some '@') := by
  by_cases h : n = []
  · subst h
    simp [skookify_var_name]
  · obtain ⟨body, hb, he⟩ := skookify_var_name_shape n q m h
    obtain ⟨f1, f2, f3, f4, f5⟩ := tidy_body_facts body hb q
    rw [he]
    cases m with
    | false =>
      simp only [Bool.false_eq_true, if_false, List.nil_append, List.drop_zero]
      exact ⟨f1, f2, f3, f4, f5, fun hm => absurd hm (by simp)⟩
    | true =>
      simp only [if_true, List.singleton_append, List.cons_append, List.nil_append,
        List.drop_succ_cons, List.drop_zero]
      refine ⟨no_double_underscore_cons '@' _ (by decide) f1, ?_, ?_, ?_, f5, fun _ _ => rfl⟩
      · intro hm
        rcases List.mem_cons.mp hm with e | e
        · exact absurd e (by decide)
        · exact f2 e
      · intro hm
        rcases List.mem_cons.mp hm with e | e
        · exact absurd e (by decide)
        · exact f3 e
      · intro c hm
        rcases List.mem_cons.mp hm with e | e
        · subst e; decide
        · exact f4 c e

/-- C14, an instance: separators in a row and at the start collapse, `__Max  Health::X`
gives `max_health_x` and, as a member, `@max_health_x`. -/
theorem skookify_var_name_clean_witness :
    skookify_var_name (TEXT "__Max  Health::X") false false = TEXT "max_health_x"
    ∧ skookify_var_name (TEXT "__Max  Health::X") false true = TEXT "@max_health_x"
    ∧ (skookify_var_name (TEXT "__Max  Health::X") false true).head? = some '@' :=
  ⟨by decide, by decide,
   (skookify_var_name_clean (TEXT "__Max  Health::X") false true).2.2.2.2.2 rfl (by decide)⟩

/-! ## Method names: question mark and `set_` -/

theorem RemoveFromStart_subset (s pre : FString) : ∀ c ∈ (RemoveFromStart s pre).1, c ∈ s := by
  intro c hc
  unfold RemoveFromStart at hc
  split_ifs at hc
  · exact hc
  · exact List.mem_of_mem_drop hc
  · exact hc

theorem skookify_method_name_eq (name : FString) (return_property_p : Option UProperty) :
    skookify_method_name name return_property_p
      = if (method_name_and_flag name).2
            && (match return_property_p with
                | some p => p.IsA_UBoolProperty
                | none => false)
        then (method_name_and_flag name).1 ++ TEXT "?" else (method_name_and_flag name).1 :=
  rfl

theorem skookify_method_name_none (name : FString) :
    skookify_method_name name none = (method_name_and_flag name).1 := by
  rw [skookify_method_name_eq]
  simp

theorem method_name_no_question_mark (name : FString) :
    '?' ∉ (method_name_and_flag name).1 := by
  have hv : '?' ∉ skookify_var_name name false false := fun hm =>
    (tidy_chars _ true (tidy_skookify_var_name name) _ hm).1 rfl
  have h1 : '?' ∉ method_name_k2 name := by
    unfold method_name_k2
    simp only
    split_ifs
    · exact fun hm => hv (RemoveFromStart_subset _ _ _ hm)
    · exact hv
  unfold method_name_and_flag method_name_get_set
  simp only
  split_ifs
  · exact fun hm => h1 (RemoveFromStart_subset _ _ _ hm)
  · intro hm
    rcases List.mem_append.mp hm with e | e
    · exact h1 (RemoveFromStart_subset _ _ _ e)
    · exact absurd e (by decide)
  · exact h1
  · exact h1

theorem method_name_flag_of_starts (name : FString)
    (h : StartsWith (method_name_and_flag name).1 (TEXT "is_") = true
      ∨ StartsWith (method_name_and_flag name).1 (TEXT "has_") = true
      ∨ StartsWith (method_name_and_flag name).1 (TEXT "can_") = true) :
    (method_name_and_flag name).2 = true := by
  unfold method_name_and_flag at h ⊢
  simp only at h ⊢
  rcases h with h | h | h <;> simp [h]

/-- C12: when the return property is absent or not boolean the method name has no
question mark, whatever the name; with a boolean return property, a name whose method
form (the result without return property) starts with `is_`, `has_` or `can_` gets the
question mark as its last character. -/
theorem skookify_method_name_question_mark (n : FString) (r : Option UProperty) :
    ((∀ p, r = some p → p.IsA_UBoolProperty = false) → '?' ∉ skookify_method_name n r)
    ∧ (∀ p, r = some p → p.IsA_UBoolProperty = true →
        (StartsWith (skookify_method_name n none) (TEXT "is_") = true
          ∨ StartsWith (skookify_method_name n none) (TEXT "has_") = true
          ∨ StartsWith (skookify_method_name n none) (TEXT "can_") = true) →
        skookify_method_name n r = skookify_method_name n none ++ TEXT "?"
        ∧ (skookify_method_name n r).getLast? = some '?') := by
  constructor
  · intro h
    rw [skookify_method_name_not_boolean n r h, skookify_method_name_none]
    exact method_name_no_question_mark n
  · intro p hr hp hs
    rw [skookify_method_name_none] at hs ⊢
    have hflag := method_name_flag_of_starts n hs
    subst hr
    rw [skookify_method_name_eq]
    simp [hflag, hp, TEXT]

/-- C12, instances: `IsValid` with a boolean return property gives `is_valid?`; with a
float return property `Is?Valid` and `bIsDead` give names without question mark. -/
theorem skookify_method_name_question_mark_witness :
    skookify_method_name (TEXT "IsValid") (some (.plain false .BoolProperty)) = TEXT "is_valid?"
    ∧ '?' ∉ skookify_method_name (TEXT "Is?Valid") (some (.plain false .FloatProperty))
    ∧ skookify_method_name (TEXT "bIsDead") (some (.plain false .FloatProperty))
        = TEXT "is_dead" := by
  refine ⟨?_, ?_, by decide⟩
  · rw [((skookify_method_name_question_mark (TEXT "IsValid")
      (some (.plain false .BoolProperty))).2 (.plain false .BoolProperty) rfl rfl
      (Or.inl (by decide))).1]
    decide
  · exact (skookify_method_name_question_mark (TEXT "Is?Valid")
      (some (.plain false .FloatProperty))).1 (by intro p hp; cases hp; rfl)

theorem letter_facts (c : Char) (h : is_letter c = true) :
    c ≠ '-' ∧ c ≠ '+' ∧ c ≠ '.' ∧ isdigit c = false := by
  refine ⟨?_, ?_, ?_, ?_⟩
  · rintro rfl; exact absurd h (by decide)
  · rintro rfl; exact absurd h (by decide)
  · rintro rfl; exact absurd h (by decide)
  · simp only [is_letter, Bool.or_eq_true, decide_eq_true_eq] at h
    simp only [isdigit, decide_eq_false_iff_not]
    omega

theorem digit_facts (c : Char) (h : isdigit c = true) : c ≠ '-' ∧ c ≠ '+' ∧ c ≠ '.' := by
  refine ⟨?_, ?_, ?_⟩
  · rintro rfl; exact absurd h (by decide)
  · rintro rfl; exact absurd h (by decide)
  · rintro rfl; exact absurd h (by decide)

theorem method_name_k2_of_set (n rest : FString)
    (hv : skookify_var_name n false false = 's' :: 'e' :: 't' :: '_' :: rest) :
    method_name_k2 n = 's' :: 'e' :: 't' :: '_' :: rest := by
  unfold method_name_k2
  simp only [hv]
  have h1 : (RemoveFromStart ('s' :: 'e' :: 't' :: '_' :: rest) (TEXT "k2_")).1
      = 's' :: 'e' :: 't' :: '_' :: rest := by
    simp [RemoveFromStart, TEXT, StartsWith]
  rw [h1]
  simp

/-- C15: when the variable form of the name is `set_` followed by a rest that begins with
a letter, the method name for a return property that is absent or not boolean is the
rest followed by `_set`; when the rest begins with a digit the variable form is returned
as it is, the `set_` kept and no `_set` appended. -/
theorem skookify_method_name_set (n rest : FString) (r : Option UProperty)
    (hnb : ∀ p, r = some p → p.IsA_UBoolProperty = false)
    (hv : skookify_var_name n false false = TEXT "set_" ++ rest) :
    (∀ c cs, rest = c :: cs → is_letter c = true →
        skookify_method_name n r = rest ++ TEXT "_set")
    ∧ (∀ c cs, rest = c :: cs → isdigit c = true →
        skookify_method_name n r = TEXT "set_" ++ rest) := by
  have hv2 : skookify_var_name n false false = 's' :: 'e' :: 't' :: '_' :: rest := hv
  have hk := method_name_k2_of_set n rest hv2
  rw [skookify_method_name_not_boolean n r hnb, skookify_method_name_none]
  constructor
  · intro c cs hr hc
    obtain ⟨l1, l2, l3, l4⟩ := letter_facts c hc
    subst hr
    have hnum : IsNumeric [c] = false := by
      simp [IsNumeric, IsNumeric_loop, l1, l2, l3, l4]
    unfold method_name_and_flag method_name_get_set
    simp only [hk]
    simp [Mid, hnum, RemoveFromStart, TEXT, StartsWith]
  · intro c cs hr hc
    obtain ⟨l1, l2, l3⟩ := digit_facts c hc
    subst hr
    have hnum : IsNumeric [c] = true := by
      simp [IsNumeric, IsNumeric_loop, l1, l2, l3, hc]
    unfold method_name_and_flag method_name_get_set
    simp only [hk]
    simp [Mid, hnum, TEXT]

/-- C15, instances: `SetActorLocation` gives `actor_location_set`; `Set1Up`, whose
variable form is `set_1up`, keeps its form. -/
theorem skookify_method_name_set_witness :
    skookify_method_name (TEXT "SetActorLocation") none = TEXT "actor_location_set"
    ∧ skookify_method_name (TEXT "Set1Up") none = TEXT "set_1up" :=
  ⟨(skookify_method_name_set (TEXT "SetActorLocation") (TEXT "actor_location") none
      (by intro p hp; cases hp) (by decide)).1 'a' (TEXT "ctor_location") (by decide) (by decide),
   (skookify_method_name_set (TEXT "Set1Up") (TEXT "1up") none
      (by intro p hp; cases hp) (by decide)).2 '1' (TEXT "up") (by decide) (by decide)⟩

/-! ## Type names, supported properties and well-known structs -/

theorem get_skookum_struct_type_of_match (s : UStruct) (n : FString) (t : eSkTypeID)
    (ht : (n, t) ∈ well_known_struct_types) (hn : ieq s.GetName n = true) :
    get_skookum_struct_type s = t := by
  have hl : s.GetName.map tolower = n.map tolower := eq_of_beq hn
  unfold get_skookum_struct_type
  simp only [well_known_struct_types, List.mem_cons, Prod.mk.injEq, List.mem_singleton,
    List.not_mem_nil, or_false] at ht
  rcases ht with ⟨h1, h2⟩ | ⟨h1, h2⟩ | ⟨h1, h2⟩ | ⟨h1, h2⟩ | ⟨h1, h2⟩ | ⟨h1, h2⟩
    | ⟨h1, h2⟩ | ⟨h1, h2⟩ | ⟨h1, h2⟩ | ⟨h1, h2⟩ <;> subst h1 <;> subst h2 <;>
    simp only [ieq, hl] <;> rfl

theorem get_skookum_struct_type_of_no_match (s : UStruct)
    (h : ∀ n ∈ well_known_struct_types.map Prod.fst, ieq s.GetName n = false) :
    get_skookum_struct_type s
      = if is_struct_type_supported s then SkTypeID_UStruct else SkTypeID_None := by
  unfold get_skookum_struct_type
  simp only [h (TEXT "Vector2D") (by decide), h (TEXT "Vector") (by decide),
    h (TEXT "Vector_NetQuantize") (by decide), h (TEXT "Vector_NetQuantizeNormal") (by decide),
    h (TEXT "Vector4") (by decide), h (TEXT "Quat") (by decide), h (TEXT "Rotator") (by decide),
    h (TEXT "Transform") (by decide), h (TEXT "Color") (by decide),
    h (TEXT "LinearColor") (by decide), Bool.false_eq_true, if_false]

/-- C18 (refuted as stated): the name `ROTATOR` is none of the ten entries of the
well-known table and the struct is not supported, yet its type is
`SkTypeID_RotationAngles`, the type of the entry `Rotator`: names are compared ignoring
case. -/
theorem get_skookum_struct_type_upper_case_rotator :
    example_struct_upper_case.GetName = TEXT "ROTATOR"
    ∧ TEXT "ROTATOR" ∉ well_known_struct_types.map Prod.fst
    ∧ is_struct_type_supported example_struct_upper_case = false
    ∧ get_skookum_struct_type example_struct_upper_case = SkTypeID_RotationAngles := by
  decide

/-- C18 (as the code has it): a struct whose name is equal, ignoring case, to one of the
ten entries of the well-known table has the fixed type of that entry, whether or not the
struct is supported; so has a struct whose name is the entry itself.  For a name equal to
no entry, ignoring case, the type is `SkTypeID_UStruct` when `is_struct_type_supported`
holds, that is for a script struct with defaults or the required-API flag, and
`SkTypeID_None` otherwise. -/
theorem get_skookum_struct_type_table (s : UStruct) :
    well_known_struct_types.length = 10
    ∧ (∀ n t, (n, t) ∈ well_known_struct_types → ieq s.GetName n = true →
        get_skookum_struct_type s = t)
    ∧ (∀ t, (s.GetName, t) ∈ well_known_struct_types → get_skookum_struct_type s = t)
    ∧ ((∀ n ∈ well_known_struct_types.map Prod.fst, ieq s.GetName n = false) →
        get_skookum_struct_type s
          = if is_struct_type_supported s then SkTypeID_UStruct else SkTypeID_None)
    ∧ (is_struct_type_supported s = true
        ↔ s.data.Kind = UStructKind.ScriptStruct
          ∧ (s.data.HasDefaults = true ∨ s.data.STRUCT_RequiredAPI = true)) := by
  refine ⟨rfl, get_skookum_struct_type_of_match s, ?_, get_skookum_struct_type_of_no_match s, ?_⟩
  · intro t ht
    exact get_skookum_struct_type_of_match s s.GetName t ht (ieq_self _)
  · simp [is_struct_type_supported]

/-- C18, instances: a struct named `Quat` that is not supported has the type
`SkTypeID_Rotation`, and so has one named `quat`; the supported struct `MyStruct` has the
type `SkTypeID_UStruct`. -/
theorem get_skookum_struct_type_table_witness :
    get_skookum_struct_type
        (.root { Address := 103, Name := TEXT "Quat", Kind := UStructKind.Function,
                 HasDefaults := false, STRUCT_RequiredAPI := false,
                 STRUCT_IsPlainOldData := false, CLASS_AnyAPI := false, Blueprint := none })
      = SkTypeID_Rotation
    ∧ get_skookum_struct_type
        (.root { Address := 104, Name := TEXT "quat", Kind := UStructKind.Function,
                 HasDefaults := false, STRUCT_RequiredAPI := false,
                 STRUCT_IsPlainOldData := false, CLASS_AnyAPI := false, Blueprint := none })
      = SkTypeID_Rotation
    ∧ get_skookum_struct_type example_struct = SkTypeID_UStruct := by
  refine ⟨(get_skookum_struct_type_table _).2.2.1 SkTypeID_Rotation (by decide),
    (get_skookum_struct_type_table _).2.1 (TEXT "Quat") SkTypeID_Rotation (by decide)
      (by decide), ?_⟩
  rw [(get_skookum_struct_type_table example_struct).2.2.2.1 (by decide)]
  decide

/-- C17: a property that is editor-only, or a lazy, weak or asset object or asset class
reference, is not supported, whatever its type id; any other property is supported
exactly when its type id is not `SkTypeID_None`. -/
theorem is_property_type_supported_spec (p : UProperty) :
    ((p.CPF_EditorOnly = true ∨ p.IsA_ULazyObjectProperty = true
        ∨ p.IsA_UWeakObjectProperty = true ∨ p.IsA_UAssetObjectProperty = true
        ∨ p.IsA_UAssetClassProperty = true) → is_property_type_supported p = false)
    ∧ (¬ (p.CPF_EditorOnly = true ∨ p.IsA_ULazyObjectProperty = true
        ∨ p.IsA_UWeakObjectProperty = true ∨ p.IsA_UAssetObjectProperty = true
        ∨ p.IsA_UAssetClassProperty = true) →
        (is_property_type_supported p = true ↔ get_skookum_property_type p ≠ SkTypeID_None)) := by
  constructor
  · intro h
    have : is_excluded_property p = true := by
      unfold is_excluded_property
      rcases h with h | h | h | h | h <;> simp [h]
    simp [is_property_type_supported, this]
  · intro h
    have : is_excluded_property p = false := by
      unfold is_excluded_property
      simp only [not_or, Bool.not_eq_true] at h
      simp [h.1, h.2.1, h.2.2.1, h.2.2.2.1, h.2.2.2.2]
    simp [is_property_type_supported, this]

/-- C17, instances: an editor-only integer property has the type id `SkTypeID_Integer`
and is not supported; the same property without the flag is supported. -/
theorem is_property_type_supported_spec_witness :
    get_skookum_property_type (.plain true .IntProperty) = SkTypeID_Integer
    ∧ is_property_type_supported (.plain true .IntProperty) = false
    ∧ is_property_type_supported (.plain false .IntProperty) = true :=
  ⟨by decide,
   (is_property_type_supported_spec (.plain true .IntProperty)).1 (Or.inl rfl),
   ((is_property_type_supported_spec (.plain false .IntProperty)).2 (by decide)).mpr
     (by decide)⟩

/-- C16 (refuted as stated): the supported struct `vector` is not in the well-known
table, yet the array of it has the type name `List{Vector3}` and not `List{vector}`: its
name is equal, ignoring case, to the entry `Vector`. -/
theorem get_skookum_property_type_name_existing_lower_case_vector :
    example_struct_lower_case.GetName = TEXT "vector"
    ∧ TEXT "vector" ∉ well_known_struct_types.map Prod.fst
    ∧ is_struct_type_supported example_struct_lower_case = true
    ∧ get_skookum_property_type
        (.ArrayProperty false (.plain false (.StructProperty example_struct_lower_case)))
      = SkTypeID_List
    ∧ get_skookum_property_type_name_existing
        (.ArrayProperty false (.plain false (.StructProperty example_struct_lower_case)))
      = TEXT "List\x7bVector3\x7d"
    ∧ TEXT "List\x7b" ++ skookify_class_name example_struct_lower_case.GetName ++ TEXT "\x7d"
      = TEXT "List\x7bvector\x7d" := by
  decide

/-- C16 (as the code has it): an array property classified `SkTypeID_List` has the type
name `List{`, the type name of its element, `}`; when the element is a struct property
whose struct has a name equal, ignoring case, to no entry of the well-known table, the
element name is the class name of the struct. -/
theorem get_skookum_property_type_name_existing_list (f : Bool) (e : UProperty)
    (h : get_skookum_property_type (.ArrayProperty f e) = SkTypeID_List) :
    get_skookum_property_type_name_existing (.ArrayProperty f e)
        = TEXT "List\x7b" ++ get_skookum_property_type_name_existing e ++ TEXT "\x7d"
    ∧ (∀ g S, e = .plain g (.StructProperty S) →
        (∀ n ∈ well_known_struct_types.map Prod.fst, ieq S.GetName n = false) →
        is_struct_type_supported S = true
        ∧ get_skookum_property_type_name_existing (.ArrayProperty f e)
          = TEXT "List\x7b" ++ skookify_class_name S.GetName ++ TEXT "\x7d") := by
  have h1 : get_skookum_property_type_name_existing (.ArrayProperty f e)
      = TEXT "List\x7b" ++ get_skookum_property_type_name_existing e ++ TEXT "\x7d" := by
    rw [get_skookum_property_type_name_existing]
    simp [h]
  refine ⟨h1, ?_⟩
  intro g S he hS
  rw [h1]
  have harr := get_skookum_property_type_array_eq f e
  rw [h] at harr
  have hsup : is_property_type_supported e = true := by
    by_contra hn
    rw [if_neg (fun hc => hn hc.1)] at harr
    exact absurd harr (by decide)
  subst he
  have htype : get_skookum_property_type (.plain g (.StructProperty S))
      = get_skookum_struct_type S := by
    simp [get_skookum_property_type, UProperty.IsA_UNumericProperty,
      UProperty.IsA_UFloatProperty, UProperty.IsA_UStrProperty, UProperty.IsA_UNameProperty,
      UProperty.IsA_UBoolProperty, UProperty.as_UStructProperty]
  have hs : is_struct_type_supported S = true := by
    simp only [is_property_type_supported, htype, get_skookum_struct_type_of_no_match S hS]
      at hsup
    by_contra hs
    simp [hs] at hsup
  have hst : get_skookum_struct_type S = SkTypeID_UStruct := by
    rw [get_skookum_struct_type_of_no_match S hS]
    simp [hs]
  refine ⟨hs, ?_⟩
  rw [get_skookum_property_type_name_existing, htype, hst]
  simp [UProperty.as_UStructProperty]

/-- C16, an instance: the array of the supported struct `MyStruct` has the type name
`List{MyStruct}`. -/
theorem get_skookum_property_type_name_existing_list_witness :
    get_skookum_property_type_name_existing
        (.ArrayProperty false (.plain false (.StructProperty example_struct)))
      = TEXT "List\x7bMyStruct\x7d" := by
  rw [((get_skookum_property_type_name_existing_list false
    (.plain false (.StructProperty example_struct)) (by decide)).2 false example_struct rfl
    (by decide)).2]
  decide

/-! ## Method paths -/

theorem tolower_eq_question_mark (c : Char) : tolower c = '?' ↔ c = '?' := by
  cases h : isupper c
  · rw [tolower_of_not_upper c h]
  · constructor
    · intro e
      exact absurd e (upper_cases c h (fun c => tolower c ≠ '?')
        (fun n h1 h2 => (tolower_ofNat_facts n h1 h2).2.2.1))
    · intro e
      subst e
      exact absurd h (by decide)

theorem Replace_loop_question_mark (fuel : Nat) (s : FString) (h : s.length ≤ fuel) :
    Replace_loop (TEXT "?") (TEXT "-Q") fuel s = question_marks_replaced s := by
  induction fuel generalizing s with
  | zero =>
    have : s = [] := List.length_eq_zero.mp (Nat.le_zero.mp h)
    subst this
    rfl
  | succ k ih =>
    cases s with
    | nil => rfl
    | cons c cs =>
      have hk : cs.length ≤ k := by simpa using h
      rw [Replace_loop, question_marks_replaced]
      have ih2 : Replace_loop ['?'] ['-', 'Q'] k cs = question_marks_replaced cs := ih cs hk
      have hq : tolower '?' = '?' := by decide
      by_cases hc : c = '?'
      · subst hc
        simp [TEXT, StartsWith_IgnoreCase, ih2, hq]
      · have hb : (tolower c == '?') = false :=
          beq_eq_false_iff_ne.mpr (fun e => hc ((tolower_eq_question_mark c).mp e))
        simp [TEXT, StartsWith_IgnoreCase, hb, hc, ih2, hq]

theorem question_marks_replaced_clean (s : FString) : '?' ∉ question_marks_replaced s := by
  induction s with
  | nil => simp [question_marks_replaced]
  | cons c cs ih =>
    rw [question_marks_replaced]
    split_ifs with hc
    · intro hm
      rcases List.mem_cons.mp hm with e | e
      · exact absurd e (by decide)
      · rcases List.mem_cons.mp e with e2 | e2
        · exact absurd e2 (by decide)
        · exact ih e2
    · intro hm
      rcases List.mem_cons.mp hm with e | e
      · exact hc e.symm
      · exact ih e

/-- C19: the method path is the class path joined with the file name, which is the
function name with every `?` replaced by `-Q`, followed by `()C.sk` for a static method
and `().sk` otherwise; the file name has no `?`. -/
theorem get_skookum_method_path_spec (self : Data) (s : UStruct) (f : FString)
    (is_static : Bool) :
    get_skookum_method_path self s f is_static
        = path_join (get_skookum_class_path self s)
            (question_marks_replaced f ++ (if is_static then TEXT "()C.sk" else TEXT "().sk"))
    ∧ '?' ∉ question_marks_replaced f ++ (if is_static then TEXT "()C.sk" else TEXT "().sk") := by
  constructor
  · unfold get_skookum_method_path Replace
    rw [Replace_loop_question_mark _ _ (Nat.le_refl _)]
  · intro hm
    rcases List.mem_append.mp hm with e | e
    · exact question_marks_replaced_clean f e
    · cases is_static
      · exact absurd e (by decide)
      · exact absurd e (by decide)

/-- C19, an instance: the instance method `is_dead?` of `Character`, with depth 1, is
written to `is_dead-Q().sk` in the folder of the class. -/
theorem get_skookum_method_path_spec_witness :
    question_marks_replaced (TEXT "is_dead?") ++ TEXT "().sk" = TEXT "is_dead-Q().sk"
    ∧ get_skookum_method_path (example_generator 1) example_character (TEXT "is_dead?") false
        = TEXT "Scripts/Object/Pawn.Character/is_dead-Q().sk" := by
  refine ⟨by decide, ?_⟩
  rw [(get_skookum_method_path_spec (example_generator 1) example_character
    (TEXT "is_dead?") false).1]
  decide

/-! ## Staging of a write -/

/-- C20 (refuted as stated): the empty file `A.sk` exists and its content equals the new
content, the empty string, yet the call returns true and stages `A.sk.tmp`. -/
theorem save_empty_content_over_empty_file :
    disk_with_empty_file (TEXT "A.sk") = some (TEXT "")
    ∧ ∃ self1 disk1,
        save_text_file_if_changed reliable_platform (example_generator 4) disk_with_empty_file
            (TEXT "A.sk") (TEXT "") = .ok (true, self1, disk1)
        ∧ self1.m_temp_file_paths = [TEXT "A.sk.tmp"]
        ∧ disk1 (TEXT "A.sk.tmp") = some (TEXT "") :=
  ⟨by decide, _, _, rfl, by decide, by decide⟩

/-- C20 (as the code has it): `save_text_file_if_changed(p, c)` finds a change exactly
when there is no file at `p`, or the file at `p` is empty, or its content differs from
`c`.  When it finds a change and the write of `p + ".tmp"` succeeds, it returns true,
`p + ".tmp"` holds the ANSI form of `c`, every other file is as it was, and
`p + ".tmp"` is appended to `m_temp_file_paths` unless a path equal to it, ignoring case,
is in the list already; when the write fails it throws `Failed to save file`.  So it
returns true exactly when it finds a change and the write succeeds.  When the file at `p`
holds the content `c` and `c` is not empty, it returns false and changes neither the file
system nor `m_temp_file_paths`. -/
theorem save_text_file_if_changed_spec (os : Platform) (self : Data) (disk : FileSystem)
    (p c : FString) :
    ((disk p = none ∨ disk p = some [] ∨ disk p ≠ some c) →
      os.can_save (p ++ TEXT ".tmp") = true →
      ∃ self1 disk1,
        save_text_file_if_changed os self disk p c = .ok (true, self1, disk1)
        ∧ disk1 (p ++ TEXT ".tmp") = some (os.ansi c)
        ∧ (∀ q, q ≠ p ++ TEXT ".tmp" → disk1 q = disk q)
        ∧ (∃ t ∈ self1.m_temp_file_paths, ieq t (p ++ TEXT ".tmp") = true)
        ∧ self1
            = { self with
                m_temp_file_paths :=
                  AddUnique_FString self.m_temp_file_paths (p ++ TEXT ".tmp") }
        ∧ ((∀ t ∈ self.m_temp_file_paths, ieq t (p ++ TEXT ".tmp") = false) →
            self1.m_temp_file_paths = self.m_temp_file_paths ++ [p ++ TEXT ".tmp"])
        ∧ ((∃ t ∈ self.m_temp_file_paths, ieq t (p ++ TEXT ".tmp") = true) →
            self1.m_temp_file_paths = self.m_temp_file_paths))
    ∧ ((disk p = none ∨ disk p = some [] ∨ disk p ≠ some c) →
        os.can_save (p ++ TEXT ".tmp") = false →
        save_text_file_if_changed os self disk p c
          = .error (FError.failed_to_save_file (p ++ TEXT ".tmp")))
    ∧ (¬ (disk p = none ∨ disk p = some [] ∨ disk p ≠ some c) →
        save_text_file_if_changed os self disk p c = .ok (false, self, disk))
    ∧ ((∃ self1 disk1, save_text_file_if_changed os self disk p c = .ok (true, self1, disk1))
        ↔ ((disk p = none ∨ disk p = some [] ∨ disk p ≠ some c)
            ∧ os.can_save (p ++ TEXT ".tmp") = true)) := by
  refine ⟨?_, save_text_file_if_changed_failed os self disk p c,
    save_text_file_if_changed_unchanged os self disk p c, ?_⟩
  · intro h hs
    refine ⟨_, _, save_text_file_if_changed_staged os self disk p c h hs, ?_, ?_, ?_, rfl,
      ?_, ?_⟩
    · simp
    · intro q hq
      simp [hq, Delete]
    · have := AddUnique_FString_has self.m_temp_file_paths (p ++ TEXT ".tmp")
      rw [List.any_eq_true] at this
      exact this
    · intro hnone
      have : self.m_temp_file_paths.any (fun element => ieq element (p ++ TEXT ".tmp"))
          = false := by
        rw [List.any_eq_false]
        intro t ht
        simp [hnone t ht]
      simp only [AddUnique_FString, this, Bool.false_eq_true, if_false]
    · intro hsome
      have : self.m_temp_file_paths.any (fun element => ieq element (p ++ TEXT ".tmp"))
          = true := List.any_eq_true.mpr hsome
      simp only [AddUnique_FString, this, if_true]
  · constructor
    · rintro ⟨self1, disk1, h⟩
      by_cases hch : disk p = none ∨ disk p = some [] ∨ disk p ≠ some c
      · refine ⟨hch, ?_⟩
        cases hs : os.can_save (p ++ TEXT ".tmp")
        · rw [save_text_file_if_changed_failed os self disk p c hch hs] at h
          exact absurd h (by simp)
        · rfl
      · rw [save_text_file_if_changed_unchanged os self disk p c hch] at h
        simp at h
    · rintro ⟨hch, hs⟩
      exact ⟨_, _, save_text_file_if_changed_staged os self disk p c hch hs⟩

/-- C20, instances: with `A.sk` holding `old`, saving `new` returns true and puts `new`
in `A.sk.tmp`; where no file can be written the same call throws; with `A.sk` holding
`x`, saving `x` returns false and changes nothing. -/
theorem save_text_file_if_changed_spec_witness :
    (∃ self1 disk1,
        save_text_file_if_changed reliable_platform (example_generator 4) disk_with_old_file
            (TEXT "A.sk") (TEXT "new") = .ok (true, self1, disk1)
        ∧ disk1 (TEXT "A.sk.tmp") = some (TEXT "new")
        ∧ self1.m_temp_file_paths = [TEXT "A.sk.tmp"])
    ∧ save_text_file_if_changed read_only_platform (example_generator 4) disk_with_old_file
          (TEXT "A.sk") (TEXT "new")
        = .error (FError.failed_to_save_file (TEXT "A.sk" ++ TEXT ".tmp"))
    ∧ save_text_file_if_changed reliable_platform generator_with_staged_file
          disk_with_staged_file (TEXT "A.sk") (TEXT "x")
        = .ok (false, generator_with_staged_file, disk_with_staged_file) := by
  refine ⟨?_,
    (save_text_file_if_changed_spec read_only_platform (example_generator 4)
      disk_with_old_file (TEXT "A.sk") (TEXT "new")).2.1 (by decide) (by decide),
    (save_text_file_if_changed_spec reliable_platform generator_with_staged_file
      disk_with_staged_file (TEXT "A.sk") (TEXT "x")).2.2.1 (by decide)⟩
  obtain ⟨self1, disk1, h1, h2, _, _, _, h6, _⟩ :=
    (save_text_file_if_changed_spec reliable_platform (example_generator 4)
      disk_with_old_file (TEXT "A.sk") (TEXT "new")).1 (by decide) (by decide)
  exact ⟨self1, disk1, h1, h2, h6 (by decide)⟩

/-! ## Staging leaves the other files alone -/

/-- C21: a call of `save_text_file_if_changed(p, c)` returns, unless the write of
`p + ".tmp"` fails and `Failed to save file` is thrown; after it every file other than
`p + ".tmp"`, the file at `p` among them, has the content it had before.  Where the
write succeeds the call returns. -/
theorem save_text_file_if_changed_frame (os : Platform) (self : Data) (disk : FileSystem)
    (p c : FString) :
    ((∃ flag self1 disk1,
        save_text_file_if_changed os self disk p c = .ok (flag, self1, disk1)
        ∧ (∀ q, q ≠ p ++ TEXT ".tmp" → disk1 q = disk q)
        ∧ disk1 p = disk p)
      ∨ (save_text_file_if_changed os self disk p c
            = .error (FError.failed_to_save_file (p ++ TEXT ".tmp"))
          ∧ os.can_save (p ++ TEXT ".tmp") = false))
    ∧ (os.can_save (p ++ TEXT ".tmp") = true →
        ∃ flag self1 disk1,
          save_text_file_if_changed os self disk p c = .ok (flag, self1, disk1)
          ∧ (∀ q, q ≠ p ++ TEXT ".tmp" → disk1 q = disk q)
          ∧ disk1 p = disk p) := by
  have hne := path_ne_temp_path p
  have hok : (disk p = none ∨ disk p = some [] ∨ disk p ≠ some c) →
      os.can_save (p ++ TEXT ".tmp") = true →
      ∃ flag self1 disk1,
        save_text_file_if_changed os self disk p c = .ok (flag, self1, disk1)
        ∧ (∀ q, q ≠ p ++ TEXT ".tmp" → disk1 q = disk q)
        ∧ disk1 p = disk p := by
    intro h hs
    refine ⟨true, _, _, save_text_file_if_changed_staged os self disk p c h hs, ?_, ?_⟩
    · intro q hq
      simp [hq, Delete]
    · simp [hne, Delete]
  have hsame : ¬ (disk p = none ∨ disk p = some [] ∨ disk p ≠ some c) →
      ∃ flag self1 disk1,
        save_text_file_if_changed os self disk p c = .ok (flag, self1, disk1)
        ∧ (∀ q, q ≠ p ++ TEXT ".tmp" → disk1 q = disk q)
        ∧ disk1 p = disk p :=
    fun h => ⟨false, self, disk, save_text_file_if_changed_unchanged os self disk p c h,
      fun _ _ => rfl, rfl⟩
  constructor
  · by_cases h : disk p = none ∨ disk p = some [] ∨ disk p ≠ some c
    · cases hs : os.can_save (p ++ TEXT ".tmp")
      · exact Or.inr ⟨save_text_file_if_changed_failed os self disk p c h hs, rfl⟩
      · exact Or.inl (hok h hs)
    · exact Or.inl (hsame h)
  · intro hs
    by_cases h : disk p = none ∨ disk p = some [] ∨ disk p ≠ some c
    · exact hok h hs
    · exact hsame h

/-- C21, an instance: with `A.sk` holding `old`, saving `new` returns and `A.sk` still
holds `old`. -/
theorem save_text_file_if_changed_frame_witness :
    ∃ flag self1 disk1,
      save_text_file_if_changed reliable_platform (example_generator 4) disk_with_old_file
          (TEXT "A.sk") (TEXT "new") = .ok (flag, self1, disk1)
      ∧ disk1 (TEXT "A.sk") = some (TEXT "old") := by
  obtain ⟨flag, self1, disk1, h1, _, h3⟩ :=
    (save_text_file_if_changed_frame reliable_platform (example_generator 4)
      disk_with_old_file (TEXT "A.sk") (TEXT "new")).2 (by decide)
  exact ⟨flag, self1, disk1, h1, by rw [h3]; decide⟩

/-! ## Used classes -/

theorem collect_super_classes_snd (s : UStruct) (acc : List FString × List UStruct) :
    (collect_super_classes s acc).2 = (super_chain s).foldl AddUnique acc.2 := by
  induction s generalizing acc with
  | root d => simp [collect_super_classes, super_chain]
  | derived d p ih =>
    obtain ⟨stack, used⟩ := acc
    rw [collect_super_classes, ih]
    simp [super_chain]

theorem foldl_AddUnique (l used : List UStruct) :
    ∃ added, l.foldl AddUnique used = used ++ added
      ∧ (∀ a ∈ added, a ∈ l ∧ a ∉ used)
      ∧ (∀ a ∈ l, a ∈ used ++ added)
      ∧ (used.Nodup → (used ++ added).Nodup) := by
  induction l generalizing used with
  | nil => exact ⟨[], by simp, by simp, by simp, by simp⟩
  | cons x l ih =>
    rw [List.foldl_cons]
    by_cases hx : x ∈ used
    · have e : AddUnique used x = used := by simp [AddUnique, hx]
      rw [e]
      obtain ⟨added, h1, h2, h3, h4⟩ := ih used
      refine ⟨added, h1, fun a ha => ⟨List.mem_cons_of_mem _ (h2 a ha).1, (h2 a ha).2⟩, ?_, h4⟩
      intro a ha
      rcases List.mem_cons.mp ha with e | e
      · subst e; exact List.mem_append_left _ hx
      · exact h3 a e
    · have e : AddUnique used x = used ++ [x] := by simp [AddUnique, hx]
      rw [e]
      obtain ⟨added, h1, h2, h3, h4⟩ := ih (used ++ [x])
      refine ⟨x :: added, by simpa using h1, ?_, ?_, ?_⟩
      · intro a ha
        rcases List.mem_cons.mp ha with e | e
        · subst e; exact ⟨List.mem_cons_self _ _, hx⟩
        · exact ⟨List.mem_cons_of_mem _ (h2 a e).1,
            fun hu => (h2 a e).2 (List.mem_append_left _ hu)⟩
      · intro a ha
        rcases List.mem_cons.mp ha with e | e
        · subst e; simp
        · simpa using h3 a e
      · intro hnd
        have : (used ++ [x]).Nodup := by
          rw [List.nodup_append]
          refine ⟨hnd, List.nodup_singleton x, ?_⟩
          intro a ha hb
          have : a = x := List.mem_singleton.mp hb
          exact hx (this ▸ ha)
        simpa using h4 this

theorem super_chain_sizeOf (s : UStruct) : ∀ a ∈ super_chain s, sizeOf a < sizeOf s := by
  induction s with
  | root d => intro a ha; simp [super_chain] at ha
  | derived d p ih =>
    intro a ha
    rw [super_chain] at ha
    have hp : sizeOf p < sizeOf (UStruct.derived d p) := by
      simp only [UStruct.derived.sizeOf_spec]
      omega
    rcases List.mem_cons.mp ha with e | e
    · subst e; exact hp
    · exact Nat.lt_trans (ih a e) hp

theorem not_mem_super_chain_self (s : UStruct) : s ∉ super_chain s :=
  fun h => Nat.lt_irrefl _ (super_chain_sizeOf s s h)

/-- C22: after `get_skookum_class_path(s)` the list `m_used_classes` is the list before
the call followed by added elements, so what was in it keeps its place and order; the
added elements are ancestors of `s` that were not in the list, every proper ancestor of
`s` is in the list, a list without duplicates stays without duplicates, and `s` itself is
in the list only if it was before. -/
theorem get_skookum_class_path_used_classes (self : Data) (s : UStruct) :
    ∃ added,
      (get_skookum_class_path_locals self s).self.m_used_classes = self.m_used_classes ++ added
      ∧ (∀ a ∈ added, a ∈ super_chain s ∧ a ∉ self.m_used_classes)
      ∧ (∀ a ∈ super_chain s, a ∈ (get_skookum_class_path_locals self s).self.m_used_classes)
      ∧ (self.m_used_classes.Nodup →
          (get_skookum_class_path_locals self s).self.m_used_classes.Nodup)
      ∧ (s ∈ (get_skookum_class_path_locals self s).self.m_used_classes
          ↔ s ∈ self.m_used_classes) := by
  have hused : (get_skookum_class_path_locals self s).self.m_used_classes
      = (super_chain s).foldl AddUnique self.m_used_classes := by
    simp only [get_skookum_class_path_locals]
    rw [collect_super_classes_snd]
  obtain ⟨added, h1, h2, h3, h4⟩ := foldl_AddUnique (super_chain s) self.m_used_classes
  rw [hused, h1]
  refine ⟨added, rfl, h2, h3, h4, ?_⟩
  constructor
  · intro hm
    rcases List.mem_append.mp hm with e | e
    · exact e
    · exact absurd (h2 s e).1 (not_mem_super_chain_self s)
  · exact fun hm => List.mem_append_left _ hm

/-- An instance of C22: with `Actor` already used, the path of `Character` appends `Pawn`
and `Object` after it; the list stays without duplicates and holds the parent `Pawn`. -/
theorem get_skookum_class_path_used_classes_witness :
    (get_skookum_class_path_locals
        { example_generator 4 with
          m_used_classes := [.derived (example_class_data "Actor")
            (.root (example_class_data "Object"))] }
        example_character).self.m_used_classes
      = [.derived (example_class_data "Actor") (.root (example_class_data "Object")),
         example_pawn, .root (example_class_data "Object")]
    ∧ (get_skookum_class_path_locals
        { example_generator 4 with
          m_used_classes := [.derived (example_class_data "Actor")
            (.root (example_class_data "Object"))] }
        example_character).self.m_used_classes.Nodup
    ∧ example_pawn ∈ (get_skookum_class_path_locals
        { example_generator 4 with
          m_used_classes := [.derived (example_class_data "Actor")
            (.root (example_class_data "Object"))] }
        example_character).self.m_used_classes := by
  obtain ⟨added, _, _, h3, h4, _⟩ := get_skookum_class_path_used_classes
    { example_generator 4 with
      m_used_classes := [.derived (example_class_data "Actor")
        (.root (example_class_data "Object"))] }
    example_character
  exact ⟨by decide, h4 (by decide), h3 example_pawn (by decide)⟩

/-! ## Depths of zero or less -/

theorem nesting_budget_of_nonpos (D : Int) (is_class : Bool) (h : D ≤ 1) :
    nesting_budget D is_class = 0 := by
  unfold nesting_budget
  cases is_class <;> simp <;> omega

theorem get_skookum_class_path_of_budget (self other : Data) (s : UStruct)
    (hp : self.m_scripts_path = other.m_scripts_path)
    (hb : (max_super_class_nesting self s).toNat = (max_super_class_nesting other s).toNat) :
    get_skookum_class_path self s = get_skookum_class_path other s := by
  unfold get_skookum_class_path
  simp only
  rw [locals_class_path, locals_class_path, locals_class_name, locals_class_name]
  simp only [base_directory, hp, hb]

/-- C23 (refuted as stated): with `m_scripts_path_depth = 0`, and with `-3`,
`get_skookum_class_path` returns a path, the one it returns for depth 1. -/
theorem get_skookum_class_path_depth_zero :
    get_skookum_class_path (example_generator 0) example_character
        = TEXT "Scripts/Object/Pawn.Character"
    ∧ get_skookum_class_path (example_generator (-3)) example_character
        = TEXT "Scripts/Object/Pawn.Character"
    ∧ get_skookum_class_path (example_generator 1) example_character
        = TEXT "Scripts/Object/Pawn.Character" := by
  decide

/-- C23 (as the code has it): a depth of 0 or less is turned down where the depth is
read: `compute_scripts_path_depth` returns false for it and leaves the default 4 in
`m_scripts_path_depth`, which is positive after every call.  `get_skookum_class_path`
has no error to signal: with a depth of 0 or less from which 1 (for a plain struct 2)
can be subtracted without `int32` overflow it returns the path of depth 1. -/
theorem nonpositive_depth_handling (self : Data) (s : UStruct) (d : Int) (hd : d ≤ 0)
    (hlo : -2 ^ 31 + (if s.is_class then 1 else 2) ≤ d) :
    compute_scripts_path_depth self (some d)
        = (false, { self with m_scripts_path_depth := 4 })
    ∧ (∀ ini, 0 < (compute_scripts_path_depth self ini).2.m_scripts_path_depth)
    ∧ get_skookum_class_path { self with m_scripts_path_depth := d } s
        = get_skookum_class_path { self with m_scripts_path_depth := 1 } s := by
  refine ⟨?_, ?_, ?_⟩
  · have : ¬ d > 0 := by omega
    simp [compute_scripts_path_depth, this]
  · intro ini
    unfold compute_scripts_path_depth
    cases ini with
    | none => simp
    | some k =>
      by_cases hk : k > 0
      · simp [hk]
      · simp [hk]
  · apply get_skookum_class_path_of_budget
    · rfl
    · rw [max_super_class_nesting_toNat _ s hlo (by show d < 2 ^ 31; omega),
        max_super_class_nesting_depth_one _ s rfl,
        nesting_budget_of_nonpos d _ (by omega)]

/-- An instance of C23: the depth 0 found in the ini file is not stored, and the path of
`Character` for depth 0 is the path for depth 1. -/
theorem nonpositive_depth_handling_witness :
    compute_scripts_path_depth (example_generator 7) (some 0)
        = (false, { example_generator 7 with m_scripts_path_depth := 4 })
    ∧ get_skookum_class_path { example_generator 7 with m_scripts_path_depth := 0 }
          example_character
        = get_skookum_class_path { example_generator 7 with m_scripts_path_depth := 1 }
          example_character :=
  ⟨(nonpositive_depth_handling (example_generator 7) example_character 0 (by decide)
      (by decide)).1,
   (nonpositive_depth_handling (example_generator 7) example_character 0 (by decide)
      (by decide)).2.2⟩

/-! ## Keywords after the checksum chop -/

theorem escape_keyword_not_keyword :
    ∀ k ∈ ms_reserved_keywords, k ++ ['_'] ∉ ms_reserved_keywords := by
  decide

theorem skookify_var_name_not_keyword_without_chop (n : FString)
    (h : chop_md5 (escape_keyword (scan_name n false)) = escape_keyword (scan_name n false)) :
    skookify_var_name n false false ∉ ms_reserved_keywords := by
  by_cases hn : n = []
  · subst hn; decide
  · have hemp : n.isEmpty = false := by
      cases n with
      | nil => exact absurd rfl hn
      | cons c cs => rfl
    simp only [skookify_var_name, hemp, Bool.false_eq_true, if_false, Bool.not_false, if_true, h]
    have ht : tidy true (scan_name n false) = true := by
      rw [scan_name_eq]
      exact tidy_scan_emit _ _ _
    rw [escape_keyword_of_tidy _ true ht]
    split_ifs with hk
    · exact escape_keyword_not_keyword _ hk
    · exact hk

/-- C24 (the code at a name with a checksum): the keyword test sees
`if_d41d8cd98f00b204e9800998ecf8427e`, which is no keyword; the checksum is chopped
afterwards and the result is the reserved keyword `if`. -/
theorem skookify_var_name_returns_keyword :
    scan_name (TEXT "If_D41D8CD98F00B204E9800998ECF8427E") false
        = TEXT "if_d41d8cd98f00b204e9800998ecf8427e"
    ∧ skookify_var_name (TEXT "If_D41D8CD98F00B204E9800998ECF8427E") false false = TEXT "if"
    ∧ skookify_var_name (TEXT "If_D41D8CD98F00B204E9800998ECF8427E") false false
        ∈ ms_reserved_keywords
    ∧ skookify_var_name (TEXT "If") false false = TEXT "if_" := by
  decide

end FSkookumScriptGeneratorBase
